import Mathlib

/-!
# View frustum (`include/SViewFrustum.h`)

A shallow embedding of `irr::scene::SViewFrustum`: the six clipping planes, the camera
position and the cached bounding box, with `setFrom`, `transform`, the four far-corner
queries, `recalculateBoundingBox` and the cached transforms of `setTransformState`.

The scalar type `f32` is embedded as an arbitrary linearly ordered field `K`, so every
statement below is one of exact arithmetic; all definitions compute at `K = ℚ`.
`core::reciprocal_squareroot` is declared outside this header and is taken as a parameter
of `setFrom`; its exact-arithmetic contract is `IsRsqrt`.
In the same way the value of a default-constructed `core::vector3df` (the local `p` of
the corner queries) is the parameter `p0`, and the helper `matrix4::transformPlane`,
whose rule the spec leaves open, is a parameter of `transform`.
-/

namespace irr

variable {K : Type} [LinearOrderedField K]

/-! ## Data model -/

/-- The type `core::vector3d<T>`: three coordinates. -/
structure vector3d (K : Type) where
  X : K
  Y : K
  Z : K

/-- The type `core::plane3d<T>`: the plane `dot(Normal, P) + D = 0`. -/
structure plane3d (K : Type) where
  Normal : vector3d K
  D : K

/-- The type `core::aabbox3d<T>`: an axis-aligned box given by two opposite corners. -/
structure aabbox3d (K : Type) where
  MinEdge : vector3d K
  MaxEdge : vector3d K

/-- The type `core::matrix4`: sixteen scalars `M[0..15]`. -/
structure matrix4 (K : Type) where
  M : Fin 16 → K

/-- Index of the far plane in `planes` (`enum VFPLANES`). -/
abbrev VF_FAR_PLANE : Fin 6 := 0
/-- Index of the near plane in `planes`. -/
abbrev VF_NEAR_PLANE : Fin 6 := 1
/-- Index of the left plane in `planes`. -/
abbrev VF_LEFT_PLANE : Fin 6 := 2
/-- Index of the right plane in `planes`. -/
abbrev VF_RIGHT_PLANE : Fin 6 := 3
/-- Index of the bottom plane in `planes`. -/
abbrev VF_BOTTOM_PLANE : Fin 6 := 4
/-- Index of the top plane in `planes`. -/
abbrev VF_TOP_PLANE : Fin 6 := 5

/-- The struct `SViewFrustum`: `cameraPosition`, `planes[VF_PLANE_COUNT]`, `boundingBox`
and the array `Matrices` of cached transforms (indexed by transformation state). -/
structure SViewFrustum (K : Type) where
  cameraPosition : vector3d K
  planes : Fin 6 → plane3d K
  boundingBox : aabbox3d K
  Matrices : Nat → matrix4 K

/-! ## Vector and plane arithmetic used by the frustum code -/

/-- Modelled from the spec: `vector3d::getLengthSQ`, not among the sources; the square of
the length the spec's normalisation divides by, `X*X + Y*Y + Z*Z`. -/
def vector3d.getLengthSQ (v : vector3d K) : K :=
  v.X * v.X + v.Y * v.Y + v.Z * v.Z

/-- Modelled from the spec: `vector3d::operator*=` with a scalar, not among the sources;
every coordinate is multiplied by the scalar. -/
def vector3d.scale (v : vector3d K) (s : K) : vector3d K :=
  ⟨v.X * s, v.Y * s, v.Z * s⟩

/-- Dot product of two vectors. -/
def vector3d.dotProduct (a b : vector3d K) : K :=
  a.X * b.X + a.Y * b.Y + a.Z * b.Z

/-- Cross product of two vectors. -/
def vector3d.crossProduct (a b : vector3d K) : vector3d K :=
  ⟨a.Y * b.Z - a.Z * b.Y, a.Z * b.X - a.X * b.Z, a.X * b.Y - a.Y * b.X⟩

/-- Sum of two vectors. -/
def vector3d.add (a b : vector3d K) : vector3d K :=
  ⟨a.X + b.X, a.Y + b.Y, a.Z + b.Z⟩

/-- The sign test of a plane at a point: `dot(Normal, P) + D`. -/
def plane3d.classify (p : plane3d K) (P : vector3d K) : K :=
  p.Normal.dotProduct P + p.D

/-- Exact-arithmetic contract of `core::reciprocal_squareroot`: on a positive argument
the result is the positive number whose square times the argument is one. -/
def IsRsqrt (reciprocal_squareroot : K → K) : Prop :=
  ∀ x : K, 0 < x → 0 < reciprocal_squareroot x ∧
    reciprocal_squareroot x * reciprocal_squareroot x * x = 1

/-! ## Three-plane intersection and the corner queries -/

/-- Modelled from the spec: `plane3d::getIntersectionWithPlanes`, whose header is not
among the sources. The spec describes it as the three-plane intersection by the
determinant-based (Cramer) closed form of the 3x3 system of the three normals, failing
when the normals are linearly dependent. The result is the status together with the
content of the out-parameter, which a failing call hands back as it received it. -/
def plane3d.getIntersectionWithPlanes (self o1 o2 : plane3d K) (outPoint : vector3d K) :
    Bool × vector3d K :=
  let det := self.Normal.dotProduct (o1.Normal.crossProduct o2.Normal)
  if det = 0 then (false, outPoint)
  else
    let s := ((o1.Normal.crossProduct o2.Normal).scale self.D).add
      (((o2.Normal.crossProduct self.Normal).scale o1.D).add
        ((self.Normal.crossProduct o1.Normal).scale o2.D))
    (true, s.scale (-1 / det))

/-- The query `SViewFrustum::getFarLeftUp`: a local `p` (default-constructed, value
`p0`), the call on the far, top and left planes with its status dropped, `return p`. -/
def SViewFrustum.getFarLeftUp (p0 : vector3d K) (F : SViewFrustum K) : vector3d K :=
  ((F.planes VF_FAR_PLANE).getIntersectionWithPlanes
    (F.planes VF_TOP_PLANE) (F.planes VF_LEFT_PLANE) p0).2

/-- The query `SViewFrustum::getFarLeftDown`: far, bottom and left planes. -/
def SViewFrustum.getFarLeftDown (p0 : vector3d K) (F : SViewFrustum K) : vector3d K :=
  ((F.planes VF_FAR_PLANE).getIntersectionWithPlanes
    (F.planes VF_BOTTOM_PLANE) (F.planes VF_LEFT_PLANE) p0).2

/-- The query `SViewFrustum::getFarRightUp`: far, top and right planes. -/
def SViewFrustum.getFarRightUp (p0 : vector3d K) (F : SViewFrustum K) : vector3d K :=
  ((F.planes VF_FAR_PLANE).getIntersectionWithPlanes
    (F.planes VF_TOP_PLANE) (F.planes VF_RIGHT_PLANE) p0).2

/-- The query `SViewFrustum::getFarRightDown`: far, bottom and right planes. -/
def SViewFrustum.getFarRightDown (p0 : vector3d K) (F : SViewFrustum K) : vector3d K :=
  ((F.planes VF_FAR_PLANE).getIntersectionWithPlanes
    (F.planes VF_BOTTOM_PLANE) (F.planes VF_RIGHT_PLANE) p0).2

/-! ## Bounding box -/

/-- Modelled from the spec: `aabbox3d::reset(point)`, not among the sources; the spec has
it reset the box "to contain only" the point. -/
def aabbox3d.reset (_box : aabbox3d K) (p : vector3d K) : aabbox3d K :=
  ⟨p, p⟩

/-- Modelled from the spec: `aabbox3d::addInternalPoint`, not among the sources; the spec
has it extend the box to include the point: each edge coordinate moves out to the point
where the point lies outside, and stays otherwise. -/
def aabbox3d.addInternalPoint (box : aabbox3d K) (p : vector3d K) : aabbox3d K :=
  ⟨⟨min box.MinEdge.X p.X, min box.MinEdge.Y p.Y, min box.MinEdge.Z p.Z⟩,
   ⟨max box.MaxEdge.X p.X, max box.MaxEdge.Y p.Y, max box.MaxEdge.Z p.Z⟩⟩

/-- The accessor `SViewFrustum::getBoundingBox`: the cached box, nothing recomputed. -/
def SViewFrustum.getBoundingBox (F : SViewFrustum K) : aabbox3d K :=
  F.boundingBox

/-- The method `SViewFrustum::recalculateBoundingBox`: reset to `cameraPosition`, then
add the four far corners in the order left-up, right-up, left-down, right-down. -/
def SViewFrustum.recalculateBoundingBox (p0 : vector3d K) (F : SViewFrustum K) :
    SViewFrustum K :=
  let b := F.boundingBox.reset F.cameraPosition
  let b := b.addInternalPoint (F.getFarLeftUp p0)
  let b := b.addInternalPoint (F.getFarRightUp p0)
  let b := b.addInternalPoint (F.getFarLeftDown p0)
  let b := b.addInternalPoint (F.getFarRightDown p0)
  { F with boundingBox := b }

/-! ## `setFrom` -/

/-- The loop `for (i = 0; i != 6; ++i)` of `setFrom`, run over the list of indices still
to visit: `len = -reciprocal_squareroot(planes[i].Normal.getLengthSQ())`, then
`planes[i].Normal *= len` and `planes[i].D *= len`. -/
def normalizeLoop (reciprocal_squareroot : K → K) :
    List (Fin 6) → (Fin 6 → plane3d K) → (Fin 6 → plane3d K)
  | [], planes => planes
  | i :: rest, planes =>
    let len := - reciprocal_squareroot (planes i).Normal.getLengthSQ
    normalizeLoop reciprocal_squareroot rest
      (Function.update planes i ⟨(planes i).Normal.scale len, (planes i).D * len⟩)

/-- The method `SViewFrustum::setFrom`: the six planes are assigned from `m = mat.M` in
the order left, right, top, bottom, far, near, every plane is normalised by the loop, and
the bounding box is recalculated. `cameraPosition` and `Matrices` are not assigned. -/
def SViewFrustum.setFrom (reciprocal_squareroot : K → K) (p0 : vector3d K)
    (mat : matrix4 K) (F : SViewFrustum K) : SViewFrustum K :=
  let m := mat.M
  let planes := F.planes
  let planes := Function.update planes VF_LEFT_PLANE
    ⟨⟨m 3 + m 0, m 7 + m 4, m 11 + m 8⟩, m 15 + m 12⟩
  let planes := Function.update planes VF_RIGHT_PLANE
    ⟨⟨m 3 - m 0, m 7 - m 4, m 11 - m 8⟩, m 15 - m 12⟩
  let planes := Function.update planes VF_TOP_PLANE
    ⟨⟨m 3 - m 1, m 7 - m 5, m 11 - m 9⟩, m 15 - m 13⟩
  let planes := Function.update planes VF_BOTTOM_PLANE
    ⟨⟨m 3 + m 1, m 7 + m 5, m 11 + m 9⟩, m 15 + m 13⟩
  let planes := Function.update planes VF_FAR_PLANE
    ⟨⟨m 3 - m 2, m 7 - m 6, m 11 - m 10⟩, m 15 - m 14⟩
  let planes := Function.update planes VF_NEAR_PLANE
    ⟨⟨m 2, m 6, m 10⟩, m 14⟩
  let planes := normalizeLoop reciprocal_squareroot [0, 1, 2, 3, 4, 5] planes
  SViewFrustum.recalculateBoundingBox p0 { F with planes := planes }

/-! ## `transform` -/

/-- The sixteen scalars as a table: entry `(i, j)` is `M[4*i + j]`. A point is a row
vector to the left of the table, as in `setFrom`, where coordinate `k` of the image of
`(x, y, z, 1)` is `x*M[k] + y*M[4+k] + z*M[8+k] + M[12+k]`. -/
def matrix4.toMatrix (mat : matrix4 K) : Matrix (Fin 4) (Fin 4) K :=
  Matrix.of fun i j => match i, j with
    | 0, 0 => mat.M 0
    | 0, 1 => mat.M 1
    | 0, 2 => mat.M 2
    | 0, 3 => mat.M 3
    | 1, 0 => mat.M 4
    | 1, 1 => mat.M 5
    | 1, 2 => mat.M 6
    | 1, 3 => mat.M 7
    | 2, 0 => mat.M 8
    | 2, 1 => mat.M 9
    | 2, 2 => mat.M 10
    | 2, 3 => mat.M 11
    | 3, 0 => mat.M 12
    | 3, 1 => mat.M 13
    | 3, 2 => mat.M 14
    | 3, 3 => mat.M 15

/-- Modelled from the spec: `matrix4::transformVect`, not among the sources; the spec has
`transform` apply the matrix to `cameraPosition` "directly": the first three coordinates
of the image of `(x, y, z, 1)`. -/
def matrix4.transformVect (mat : matrix4 K) (v : vector3d K) : vector3d K :=
  let m := mat.M
  ⟨v.X * m 0 + v.Y * m 4 + v.Z * m 8 + m 12,
   v.X * m 1 + v.Y * m 5 + v.Z * m 9 + m 13,
   v.X * m 2 + v.Y * m 6 + v.Z * m 10 + m 14⟩

/-- The loop `for (int i = 0; i < VF_PLANE_COUNT; ++i) mat.transformPlane(planes[i])` of
`transform`, run over the list of indices still to visit. The helper
`matrix4::transformPlane` is declared outside this header and the spec leaves its rule
open, so it is the parameter `transformPlane`. -/
def transformLoop (transformPlane : matrix4 K → plane3d K → plane3d K) (mat : matrix4 K) :
    List (Fin 6) → (Fin 6 → plane3d K) → (Fin 6 → plane3d K)
  | [], planes => planes
  | i :: rest, planes =>
    transformLoop transformPlane mat rest
      (Function.update planes i (transformPlane mat (planes i)))

/-- The method `SViewFrustum::transform`: every plane is transformed by the helper
`transformPlane`, then `cameraPosition` by `transformVect`, and the bounding box is
recalculated. -/
def SViewFrustum.transform (transformPlane : matrix4 K → plane3d K → plane3d K)
    (p0 : vector3d K) (mat : matrix4 K) (F : SViewFrustum K) : SViewFrustum K :=
  let planes := transformLoop transformPlane mat [0, 1, 2, 3, 4, 5] F.planes
  let cameraPosition := mat.transformVect F.cameraPosition
  SViewFrustum.recalculateBoundingBox p0
    { F with planes := planes, cameraPosition := cameraPosition }

/-! ## Notions the statements are phrased in -/

/-- The four-vector `v_k = (m[k], m[4+k], m[8+k], m[12+k])` of a matrix, written as plane
coefficients `(Normal.X, Normal.Y, Normal.Z, D)`. -/
def matrix4.fourVector (mat : matrix4 K) (k : Fin 4) : plane3d K :=
  match k with
  | 0 => ⟨⟨mat.M 0, mat.M 4, mat.M 8⟩, mat.M 12⟩
  | 1 => ⟨⟨mat.M 1, mat.M 5, mat.M 9⟩, mat.M 13⟩
  | 2 => ⟨⟨mat.M 2, mat.M 6, mat.M 10⟩, mat.M 14⟩
  | 3 => ⟨⟨mat.M 3, mat.M 7, mat.M 11⟩, mat.M 15⟩

/-- Sum of two coefficient four-vectors. -/
def plane3d.add (p q : plane3d K) : plane3d K :=
  ⟨p.Normal.add q.Normal, p.D + q.D⟩

/-- Difference of two coefficient four-vectors. -/
def plane3d.sub (p q : plane3d K) : plane3d K :=
  ⟨⟨p.Normal.X - q.Normal.X, p.Normal.Y - q.Normal.Y, p.Normal.Z - q.Normal.Z⟩, p.D - q.D⟩

/-- A coefficient four-vector multiplied by a scalar. -/
def plane3d.scale (p : plane3d K) (s : K) : plane3d K :=
  ⟨p.Normal.scale s, p.D * s⟩

/-- The un-normalised coefficients of the six planes, by plane index: far `v3 - v2`,
near `v2`, left `v3 + v0`, right `v3 - v0`, bottom `v3 + v1`, top `v3 - v1`. -/
def rawPlane (mat : matrix4 K) (i : Fin 6) : plane3d K :=
  match i with
  | 0 => (mat.fourVector 3).sub (mat.fourVector 2)
  | 1 => mat.fourVector 2
  | 2 => (mat.fourVector 3).add (mat.fourVector 0)
  | 3 => (mat.fourVector 3).sub (mat.fourVector 0)
  | 4 => (mat.fourVector 3).add (mat.fourVector 1)
  | 5 => (mat.fourVector 3).sub (mat.fourVector 1)

/-- The vector with all coordinates zero. -/
def vector3d.zero : vector3d K := ⟨0, 0, 0⟩

/-- The point lies in the box, edges included. -/
def aabbox3d.contains (box : aabbox3d K) (p : vector3d K) : Prop :=
  box.MinEdge.X ≤ p.X ∧ p.X ≤ box.MaxEdge.X ∧
  box.MinEdge.Y ≤ p.Y ∧ p.Y ≤ box.MaxEdge.Y ∧
  box.MinEdge.Z ≤ p.Z ∧ p.Z ≤ box.MaxEdge.Z

/-- The first box lies within the second. -/
def aabbox3d.within (a b : aabbox3d K) : Prop :=
  b.MinEdge.X ≤ a.MinEdge.X ∧ a.MaxEdge.X ≤ b.MaxEdge.X ∧
  b.MinEdge.Y ≤ a.MinEdge.Y ∧ a.MaxEdge.Y ≤ b.MaxEdge.Y ∧
  b.MinEdge.Z ≤ a.MinEdge.Z ∧ a.MaxEdge.Z ≤ b.MaxEdge.Z

/-- Three vectors are linearly independent: only the trivial combination vanishes. -/
def linearlyIndependent3 (a b c : vector3d K) : Prop :=
  ∀ x y z : K, ((a.scale x).add ((b.scale y).add (c.scale z))) = vector3d.zero →
    x = 0 ∧ y = 0 ∧ z = 0

/-- The orthographic projection matrix of width `w`, height `h`, near `n` and far `f`:
`m[0] = 2/w`, `m[5] = 2/h`, `m[10] = 1/(f-n)`, `m[14] = n/(n-f)`, `m[15] = 1`, all other
entries zero. -/
def orthoMatrix (w h n f : K) : matrix4 K :=
  ⟨fun k => match k with
    | 0 => 2 / w
    | 5 => 2 / h
    | 10 => 1 / (f - n)
    | 14 => n / (n - f)
    | 15 => 1
    | _ => 0⟩

/-- The identity matrix. -/
def identityMatrix : matrix4 K :=
  ⟨fun k => match k with
    | 0 => 1
    | 5 => 1
    | 10 => 1
    | 15 => 1
    | _ => 0⟩

/-- A vector has length `L`: `L` is the non-negative root of the squared length. -/
def vector3d.hasLength (v : vector3d K) (L : K) : Prop :=
  0 ≤ L ∧ L * L = v.getLengthSQ

/-- The plane `p` is the coefficient four-vector `raw` multiplied by `σ / L`, where `L`
is the (non-zero) length of the normal part of `raw`. -/
def plane3d.isScaledByLength (p : plane3d K) (σ : K) (raw : plane3d K) : Prop :=
  ∃ L : K, 0 < L ∧ raw.Normal.hasLength L ∧ p = raw.scale (σ / L)

/-- A frustum with every scalar zero, the state examples start from. -/
def SViewFrustum.blank : SViewFrustum K :=
  { cameraPosition := vector3d.zero
    planes := fun _ => ⟨vector3d.zero, 0⟩
    boundingBox := ⟨vector3d.zero, vector3d.zero⟩
    Matrices := fun _ => ⟨fun _ => 0⟩ }

/-- Clip coordinate `c_k = x*m[k] + y*m[4+k] + z*m[8+k] + m[12+k]` of the point
`(x, y, z)`. -/
def matrix4.clip (mat : matrix4 K) (P : vector3d K) (k : Fin 4) : K :=
  P.X * (mat.fourVector k).Normal.X + P.Y * (mat.fourVector k).Normal.Y
    + P.Z * (mat.fourVector k).Normal.Z + (mat.fourVector k).D

/-- The point lies strictly inside the clip volume of the matrix:
`-c3 < c0 < c3`, `-c3 < c1 < c3` and `0 < c2 < c3`. -/
def matrix4.strictlyInside (mat : matrix4 K) (P : vector3d K) : Prop :=
  - mat.clip P 3 < mat.clip P 0 ∧ mat.clip P 0 < mat.clip P 3 ∧
  - mat.clip P 3 < mat.clip P 1 ∧ mat.clip P 1 < mat.clip P 3 ∧
  0 < mat.clip P 2 ∧ mat.clip P 2 < mat.clip P 3

/-- The scalar triple product of three normals, the determinant of the 3x3 system that
`getIntersectionWithPlanes` solves. -/
def tripleProduct (a b c : vector3d K) : K :=
  a.dotProduct (b.crossProduct c)

/-- The point `P` is the one and only point on the three planes. -/
def isUniqueIntersection (a b c : plane3d K) (P : vector3d K) : Prop :=
  a.classify P = 0 ∧ b.classify P = 0 ∧ c.classify P = 0 ∧
  ∀ Q : vector3d K, a.classify Q = 0 → b.classify Q = 0 → c.classify Q = 0 → Q = P

/-- The box whose edges are the component-wise minimum and maximum of five points. -/
def boundsOfFive (c p1 p2 p3 p4 : vector3d K) : aabbox3d K :=
  ⟨⟨min (min (min (min c.X p1.X) p2.X) p3.X) p4.X,
    min (min (min (min c.Y p1.Y) p2.Y) p3.Y) p4.Y,
    min (min (min (min c.Z p1.Z) p2.Z) p3.Z) p4.Z⟩,
   ⟨max (max (max (max c.X p1.X) p2.X) p3.X) p4.X,
    max (max (max (max c.Y p1.Y) p2.Y) p3.Y) p4.Y,
    max (max (max (max c.Z p1.Z) p2.Z) p3.Z) p4.Z⟩⟩

/-- A frustum given by its six planes in index order (far, near, left, right, bottom,
top), every other scalar zero. -/
def frustumOfPlanes (far near left right bottom top : plane3d K) : SViewFrustum K :=
  { SViewFrustum.blank with
    planes := fun i => match i with
      | 0 => far
      | 1 => near
      | 2 => left
      | 3 => right
      | 4 => bottom
      | 5 => top }

/-- The box is the tightest axis-aligned box around five points: its edges are their
component-wise minimum and maximum, it contains each of them, and it lies within every
box that contains them all. -/
def aabbox3d.isTightestAround (box : aabbox3d K) (c p1 p2 p3 p4 : vector3d K) : Prop :=
  box = boundsOfFive c p1 p2 p3 p4 ∧
  box.contains c ∧ box.contains p1 ∧ box.contains p2 ∧ box.contains p3 ∧ box.contains p4 ∧
  ∀ B : aabbox3d K, B.contains c → B.contains p1 → B.contains p2 → B.contains p3 →
    B.contains p4 → box.within B

/-- The box `[-1, 1] x [-1, 1] x [0, 1]` as a frustum: the planes `setFrom` builds from
the identity matrix. -/
def unitBoxFrustum : SViewFrustum K :=
  frustumOfPlanes ⟨⟨0, 0, 1⟩, -1⟩ ⟨⟨0, 0, -1⟩, 0⟩ ⟨⟨-1, 0, 0⟩, -1⟩ ⟨⟨1, 0, 0⟩, -1⟩
    ⟨⟨0, -1, 0⟩, -1⟩ ⟨⟨0, 1, 0⟩, -1⟩

/-- A frustum whose left plane `z = 2` is parallel to its far plane `z = 1`. -/
def leftParallelToFarFrustum : SViewFrustum K :=
  frustumOfPlanes ⟨⟨0, 0, 1⟩, -1⟩ ⟨⟨0, 0, -1⟩, 0⟩ ⟨⟨0, 0, 1⟩, -2⟩ ⟨⟨1, 0, 0⟩, -1⟩
    ⟨⟨0, -1, 0⟩, -1⟩ ⟨⟨0, 1, 0⟩, -1⟩

/-- A frustum whose four far corners all are the point `c`: far plane `z = c.Z`, left
and right planes `x = c.X`, bottom and top planes `y = c.Y`. -/
def cornerAtFrustum (c : vector3d K) : SViewFrustum K :=
  frustumOfPlanes ⟨⟨0, 0, 1⟩, -c.Z⟩ ⟨⟨0, 0, -1⟩, 0⟩ ⟨⟨1, 0, 0⟩, -c.X⟩ ⟨⟨1, 0, 0⟩, -c.X⟩
    ⟨⟨0, 1, 0⟩, -c.Y⟩ ⟨⟨0, 1, 0⟩, -c.Y⟩

/-- A singular matrix, `m[8] = m[9] = m[10] = m[15] = 1` and zero elsewhere: it sends
`(x, y, z, 1)` to `(z, z, z, 1)`. -/
def flatMatrix : matrix4 K :=
  ⟨fun k => match k with
    | 8 => 1
    | 9 => 1
    | 10 => 1
    | 15 => 1
    | _ => 0⟩

/-- The three values of `video::E_TRANSFORMATION_STATE` that the frustum refers to. The
enumeration is declared in `IVideoDriver.h`, outside this header, so the values are
parameters. -/
structure E_TRANSFORMATION_STATE where
  ETS_VIEW : Nat
  ETS_WORLD : Nat
  ETS_PROJECTION : Nat

/-- First value of `enum E_TRANSFORMATION_STATE_3`: `video::ETS_PROJECTION + 1`. -/
def ETS_VIEW_PROJECTION_3 (e : E_TRANSFORMATION_STATE) : Nat :=
  e.ETS_PROJECTION + 1

/-- Second value of `enum E_TRANSFORMATION_STATE_3`, one more than the first. -/
def ETS_VIEW_MODEL_INVERSE_3 (e : E_TRANSFORMATION_STATE) : Nat :=
  ETS_VIEW_PROJECTION_3 e + 1

/-- Third value of `enum E_TRANSFORMATION_STATE_3`. -/
def ETS_CURRENT_3 (e : E_TRANSFORMATION_STATE) : Nat :=
  ETS_VIEW_MODEL_INVERSE_3 e + 1

/-- Last value of `enum E_TRANSFORMATION_STATE_3`, the length of `Matrices`. -/
def ETS_COUNT_3 (e : E_TRANSFORMATION_STATE) : Nat :=
  ETS_CURRENT_3 e + 1

/-- A table written back as sixteen scalars: `M[4*i + j]` is entry `(i, j)`; the last
case is `M[15]`. -/
def matrix4.ofMatrix (A : Matrix (Fin 4) (Fin 4) K) : matrix4 K :=
  ⟨fun k => match k with
    | 0 => A 0 0
    | 1 => A 0 1
    | 2 => A 0 2
    | 3 => A 0 3
    | 4 => A 1 0
    | 5 => A 1 1
    | 6 => A 1 2
    | 7 => A 1 3
    | 8 => A 2 0
    | 9 => A 2 1
    | 10 => A 2 2
    | 11 => A 2 3
    | 12 => A 3 0
    | 13 => A 3 1
    | 14 => A 3 2
    | _ => A 3 3⟩

/-- Modelled from the spec: `matrix4::setbyproduct_nocheck(a, b)`, not among the sources.
The spec has the call with `a` the projection and `b` the view matrix compute "the
view*projection product": with points as row vectors to the left of the table, the
transform that applies `b` first and `a` second, whose table is that of `b` times that
of `a`. The receiver is overwritten, so the result is a function of `a` and `b`. -/
def matrix4.setbyproduct_nocheck (a b : matrix4 K) : matrix4 K :=
  matrix4.ofMatrix (b.toMatrix * a.toMatrix)

/-- Modelled from the spec: `matrix4::setbyproduct(a, b)`, not among the sources; the spec
has the call with `a` the view-projection product and `b` the world matrix compute "the
world*view*projection product": the same product as `setbyproduct_nocheck`. -/
def matrix4.setbyproduct (a b : matrix4 K) : matrix4 K :=
  matrix4.ofMatrix (b.toMatrix * a.toMatrix)

/-- Modelled from the spec: `matrix4::makeInverse`, not among the sources; the spec has it
turn the copy of the view matrix into "the inverse of the view matrix". The inverse is
taken in cofactor form, adjugate over determinant; the statements about it are about an
invertible matrix. -/
def matrix4.makeInverse (m : matrix4 K) : matrix4 K :=
  matrix4.ofMatrix ((m.toMatrix.det)⁻¹ • m.toMatrix.adjugate)

/-- The method `SViewFrustum::setTransformState`: `switch (state)` with the cases
`video::ETS_VIEW` (the product of the projection and view entries goes to
`Matrices[ETS_VIEW_PROJECTION_3]`, the view entry is copied to
`Matrices[ETS_VIEW_MODEL_INVERSE_3]` and inverted there) and `video::ETS_WORLD` (the
product of `Matrices[ETS_VIEW_PROJECTION_3]` and the world entry goes to
`Matrices[ETS_CURRENT_3]`); any other state does nothing. -/
def SViewFrustum.setTransformState (e : E_TRANSFORMATION_STATE) (state : Nat)
    (F : SViewFrustum K) : SViewFrustum K :=
  if state = e.ETS_VIEW then
    let Matrices := Function.update F.Matrices (ETS_VIEW_PROJECTION_3 e)
      (matrix4.setbyproduct_nocheck (F.Matrices e.ETS_PROJECTION) (F.Matrices e.ETS_VIEW))
    let Matrices := Function.update Matrices (ETS_VIEW_MODEL_INVERSE_3 e)
      (Matrices e.ETS_VIEW)
    let Matrices := Function.update Matrices (ETS_VIEW_MODEL_INVERSE_3 e)
      (Matrices (ETS_VIEW_MODEL_INVERSE_3 e)).makeInverse
    { F with Matrices := Matrices }
  else if state = e.ETS_WORLD then
    let Matrices := Function.update F.Matrices (ETS_CURRENT_3 e)
      (matrix4.setbyproduct (F.Matrices (ETS_VIEW_PROJECTION_3 e)) (F.Matrices e.ETS_WORLD))
    { F with Matrices := Matrices }
  else F

/-- The three state values and the three cache indices are six different indices of
`Matrices`. -/
def E_TRANSFORMATION_STATE.slotsDistinct (e : E_TRANSFORMATION_STATE) : Prop :=
  e.ETS_VIEW ≠ e.ETS_WORLD ∧ e.ETS_VIEW ≠ e.ETS_PROJECTION ∧
  e.ETS_WORLD ≠ e.ETS_PROJECTION ∧
  e.ETS_VIEW ≠ ETS_VIEW_PROJECTION_3 e ∧ e.ETS_VIEW ≠ ETS_VIEW_MODEL_INVERSE_3 e ∧
  e.ETS_VIEW ≠ ETS_CURRENT_3 e ∧
  e.ETS_WORLD ≠ ETS_VIEW_PROJECTION_3 e ∧ e.ETS_WORLD ≠ ETS_VIEW_MODEL_INVERSE_3 e ∧
  e.ETS_WORLD ≠ ETS_CURRENT_3 e

/-- A frustum whose `Matrices` hold the identity everywhere except at index 3, where
every scalar is zero. -/
def staleCacheFrustum : SViewFrustum K :=
  { SViewFrustum.blank with
    Matrices := fun k => if k = 3 then ⟨fun _ => 0⟩ else identityMatrix }

/-- The state values 0, 1 and 2 for view, world and projection, for the examples. -/
def consecutiveStates : E_TRANSFORMATION_STATE := ⟨0, 1, 2⟩

/-- The raw clip expression of plane `i` at a point, in its clip coordinates: far
`c3 - c2`, near `c2`, left `c3 + c0`, right `c3 - c0`, bottom `c3 + c1`, top `c3 - c1`. -/
def matrix4.clipTest (mat : matrix4 K) (P : vector3d K) (i : Fin 6) : K :=
  match i with
  | 0 => mat.clip P 3 - mat.clip P 2
  | 1 => mat.clip P 2
  | 2 => mat.clip P 3 + mat.clip P 0
  | 3 => mat.clip P 3 - mat.clip P 0
  | 4 => mat.clip P 3 + mat.clip P 1
  | 5 => mat.clip P 3 - mat.clip P 1

/-- A perspective projection matrix with near `n`, far `f` and a field of view of 90
degrees: `m[0] = m[5] = 1`, `m[10] = f/(f-n)`, `m[11] = 1`, `m[14] = n*f/(n-f)`, zero
elsewhere. It sends `(x, y, z, 1)` to the clip coordinates `(x, y, f*(z-n)/(f-n), z)`;
its eye is the origin. -/
def perspectiveMatrix (n f : K) : matrix4 K :=
  ⟨fun k => match k with
    | 0 => 1
    | 5 => 1
    | 10 => f / (f - n)
    | 11 => 1
    | 14 => n * f / (n - f)
    | _ => 0⟩

/-- The raw coefficients written out are the right-hand sides of the twenty-four
assignments at the start of `setFrom`. -/
theorem rawPlane_eq_assignments (mat : matrix4 K) :
    rawPlane mat 0 = ⟨⟨mat.M 3 - mat.M 2, mat.M 7 - mat.M 6, mat.M 11 - mat.M 10⟩,
        mat.M 15 - mat.M 14⟩ ∧
    rawPlane mat 1 = ⟨⟨mat.M 2, mat.M 6, mat.M 10⟩, mat.M 14⟩ ∧
    rawPlane mat 2 = ⟨⟨mat.M 3 + mat.M 0, mat.M 7 + mat.M 4, mat.M 11 + mat.M 8⟩,
        mat.M 15 + mat.M 12⟩ ∧
    rawPlane mat 3 = ⟨⟨mat.M 3 - mat.M 0, mat.M 7 - mat.M 4, mat.M 11 - mat.M 8⟩,
        mat.M 15 - mat.M 12⟩ ∧
    rawPlane mat 4 = ⟨⟨mat.M 3 + mat.M 1, mat.M 7 + mat.M 5, mat.M 11 + mat.M 9⟩,
        mat.M 15 + mat.M 13⟩ ∧
    rawPlane mat 5 = ⟨⟨mat.M 3 - mat.M 1, mat.M 7 - mat.M 5, mat.M 11 - mat.M 9⟩,
        mat.M 15 - mat.M 13⟩ := by
  refine ⟨rfl, rfl, rfl, rfl, rfl, rfl⟩

/-- Every plane after `setFrom` is its raw coefficient vector times
`-reciprocal_squareroot` of the raw normal's squared length. -/
theorem setFrom_planes (rs : K → K) (p0 : vector3d K) (mat : matrix4 K)
    (F : SViewFrustum K) (i : Fin 6) :
    (F.setFrom rs p0 mat).planes i
      = (rawPlane mat i).scale (- rs (rawPlane mat i).Normal.getLengthSQ) := by
  fin_cases i <;> rfl

/-- The function `x ↦ 1 / √x` on the reals meets the contract of
`core::reciprocal_squareroot`. -/
theorem isRsqrt_real : IsRsqrt (fun x : ℝ => (Real.sqrt x)⁻¹) := by
  intro x hx
  have hs : 0 < Real.sqrt x := Real.sqrt_pos.mpr hx
  refine ⟨inv_pos.mpr hs, ?_⟩
  have h2 : Real.sqrt x * Real.sqrt x = x := Real.mul_self_sqrt hx.le
  calc (Real.sqrt x)⁻¹ * (Real.sqrt x)⁻¹ * x
      = (Real.sqrt x)⁻¹ * (Real.sqrt x)⁻¹ * (Real.sqrt x * Real.sqrt x) := by rw [h2]
    _ = ((Real.sqrt x)⁻¹ * Real.sqrt x) * ((Real.sqrt x)⁻¹ * Real.sqrt x) := by ring
    _ = 1 := by rw [inv_mul_cancel₀ hs.ne', one_mul]

/-- A non-zero vector has positive squared length. -/
theorem getLengthSQ_pos (v : vector3d K) (hv : v ≠ vector3d.zero) : 0 < v.getLengthSQ := by
  obtain ⟨x, y, z⟩ := v
  simp only [vector3d.getLengthSQ]
  by_contra hcon
  have hx : x = 0 := by nlinarith [mul_self_nonneg x, mul_self_nonneg y, mul_self_nonneg z]
  have hy : y = 0 := by nlinarith [mul_self_nonneg x, mul_self_nonneg y, mul_self_nonneg z]
  have hz : z = 0 := by nlinarith [mul_self_nonneg x, mul_self_nonneg y, mul_self_nonneg z]
  exact hv (by simp [vector3d.zero, hx, hy, hz])

/-- Scaling a vector multiplies its squared length by the square of the factor. -/
theorem getLengthSQ_scale (v : vector3d K) (s : K) :
    (v.scale s).getLengthSQ = s * s * v.getLengthSQ := by
  simp only [vector3d.getLengthSQ, vector3d.scale]
  ring

/-- Scaling a plane multiplies its sign test by the factor. -/
theorem classify_scale (p : plane3d K) (s : K) (P : vector3d K) :
    (p.scale s).classify P = s * p.classify P := by
  simp only [plane3d.classify, plane3d.scale, vector3d.dotProduct, vector3d.scale]
  ring

/-- The raw plane normals of the identity matrix are non-zero. -/
theorem rawPlane_identity_ne_zero (i : Fin 6) :
    (rawPlane (identityMatrix : matrix4 ℝ) i).Normal ≠ vector3d.zero := by
  fin_cases i <;>
    simp [rawPlane, matrix4.fourVector, identityMatrix, plane3d.add, plane3d.sub,
      vector3d.add, vector3d.zero]

/-- C1: for a matrix whose six raw plane normals are non-zero, `setFrom` stores at index
0 (far) `v3 - v2`, at 1 (near) `v2`, at 2 (left) `v3 + v0`, at 3 (right) `v3 - v0`, at
4 (bottom) `v3 + v1` and at 5 (top) `v3 - v1`, each multiplied by the reciprocal of the
length of its own normal part, with the one sign `-1` for all six. -/
theorem setFrom_planes_are_scaled_four_vector_combinations
    (rs : K → K) (hrs : IsRsqrt rs) (p0 : vector3d K) (mat : matrix4 K)
    (F : SViewFrustum K)
    (hn : ∀ i : Fin 6, (rawPlane mat i).Normal ≠ vector3d.zero) :
    ((F.setFrom rs p0 mat).planes 0).isScaledByLength (-1)
        ((mat.fourVector 3).sub (mat.fourVector 2)) ∧
    ((F.setFrom rs p0 mat).planes 1).isScaledByLength (-1) (mat.fourVector 2) ∧
    ((F.setFrom rs p0 mat).planes 2).isScaledByLength (-1)
        ((mat.fourVector 3).add (mat.fourVector 0)) ∧
    ((F.setFrom rs p0 mat).planes 3).isScaledByLength (-1)
        ((mat.fourVector 3).sub (mat.fourVector 0)) ∧
    ((F.setFrom rs p0 mat).planes 4).isScaledByLength (-1)
        ((mat.fourVector 3).add (mat.fourVector 1)) ∧
    ((F.setFrom rs p0 mat).planes 5).isScaledByLength (-1)
        ((mat.fourVector 3).sub (mat.fourVector 1)) ∧
    VF_FAR_PLANE = 0 ∧ VF_NEAR_PLANE = 1 ∧ VF_LEFT_PLANE = 2 ∧ VF_RIGHT_PLANE = 3 ∧
      VF_BOTTOM_PLANE = 4 ∧ VF_TOP_PLANE = 5 := by
  have key : ∀ i : Fin 6,
      ((F.setFrom rs p0 mat).planes i).isScaledByLength (-1) (rawPlane mat i) := by
    intro i
    have hpos := getLengthSQ_pos _ (hn i)
    obtain ⟨hr, hr1⟩ := hrs _ hpos
    refine ⟨(rs (rawPlane mat i).Normal.getLengthSQ)⁻¹, inv_pos.mpr hr,
      ⟨(inv_pos.mpr hr).le, ?_⟩, ?_⟩
    · field_simp
      linarith [hr1]
    · rw [setFrom_planes]
      congr 1
      field_simp
  exact ⟨key 0, key 1, key 2, key 3, key 4, key 5, rfl, rfl, rfl, rfl, rfl, rfl⟩

/-- C1, at the identity matrix over the reals with `1 / √x` for the reciprocal square
root. -/
theorem setFrom_planes_are_scaled_four_vector_combinations_witness :
    IsRsqrt (fun x : ℝ => (Real.sqrt x)⁻¹) ∧
    (∀ i : Fin 6, (rawPlane (identityMatrix : matrix4 ℝ) i).Normal ≠ vector3d.zero) ∧
    ((SViewFrustum.blank.setFrom (fun x : ℝ => (Real.sqrt x)⁻¹) vector3d.zero
        identityMatrix).planes 2).isScaledByLength (-1)
      (((identityMatrix : matrix4 ℝ).fourVector 3).add (identityMatrix.fourVector 0)) :=
  ⟨isRsqrt_real, rawPlane_identity_ne_zero,
    (setFrom_planes_are_scaled_four_vector_combinations _ isRsqrt_real vector3d.zero
      identityMatrix SViewFrustum.blank rawPlane_identity_ne_zero).2.2.1⟩

/-- C2: for a matrix whose six raw plane normals are non-zero, after `setFrom` every plane
normal has length exactly 1, and every plane vanishes at exactly the points where its
un-normalised coefficients vanish. -/
theorem setFrom_normals_unit_and_zero_sets_kept
    (rs : K → K) (hrs : IsRsqrt rs) (p0 : vector3d K) (mat : matrix4 K)
    (F : SViewFrustum K)
    (hn : ∀ i : Fin 6, (rawPlane mat i).Normal ≠ vector3d.zero) (i : Fin 6) :
    ((F.setFrom rs p0 mat).planes i).Normal.hasLength 1 ∧
    ∀ P : vector3d K, ((F.setFrom rs p0 mat).planes i).classify P = 0 ↔
      (rawPlane mat i).classify P = 0 := by
  have hpos := getLengthSQ_pos _ (hn i)
  obtain ⟨hr, hr1⟩ := hrs _ hpos
  rw [setFrom_planes]
  refine ⟨⟨zero_le_one, ?_⟩, fun P => ?_⟩
  · simp only [plane3d.scale, getLengthSQ_scale]
    linarith [hr1]
  · rw [classify_scale]
    constructor
    · intro h
      rcases mul_eq_zero.mp h with h0 | h0
      · exact absurd (neg_eq_zero.mp h0) hr.ne'
      · exact h0
    · intro h
      rw [h, mul_zero]

/-- C2, at the identity matrix over the reals, for the far plane. -/
theorem setFrom_normals_unit_and_zero_sets_kept_witness :
    IsRsqrt (fun x : ℝ => (Real.sqrt x)⁻¹) ∧
    (∀ i : Fin 6, (rawPlane (identityMatrix : matrix4 ℝ) i).Normal ≠ vector3d.zero) ∧
    ((SViewFrustum.blank.setFrom (fun x : ℝ => (Real.sqrt x)⁻¹) vector3d.zero
        identityMatrix).planes 0).Normal.hasLength 1 :=
  ⟨isRsqrt_real, rawPlane_identity_ne_zero,
    (setFrom_normals_unit_and_zero_sets_kept _ isRsqrt_real vector3d.zero
      identityMatrix SViewFrustum.blank rawPlane_identity_ne_zero 0).1⟩

/-- The method `setFrom` does not assign `cameraPosition`. -/
theorem setFrom_cameraPosition (rs : K → K) (p0 : vector3d K) (mat : matrix4 K)
    (F : SViewFrustum K) : (F.setFrom rs p0 mat).cameraPosition = F.cameraPosition :=
  rfl

/-- The sign test of a raw plane in clip coordinates. -/
theorem rawPlane_classify (mat : matrix4 K) (P : vector3d K) :
    (rawPlane mat 0).classify P = mat.clip P 3 - mat.clip P 2 ∧
    (rawPlane mat 1).classify P = mat.clip P 2 ∧
    (rawPlane mat 2).classify P = mat.clip P 3 + mat.clip P 0 ∧
    (rawPlane mat 3).classify P = mat.clip P 3 - mat.clip P 0 ∧
    (rawPlane mat 4).classify P = mat.clip P 3 + mat.clip P 1 ∧
    (rawPlane mat 5).classify P = mat.clip P 3 - mat.clip P 1 := by
  simp only [rawPlane, plane3d.classify, matrix4.clip, matrix4.fourVector, plane3d.add,
    plane3d.sub, vector3d.add, vector3d.dotProduct]
  refine ⟨?_, ?_, ?_, ?_, ?_, ?_⟩ <;> ring

/-- A point strictly inside the clip volume is on the negative side of every plane that
`setFrom` builds. -/
theorem setFrom_classify_neg_of_strictlyInside
    (rs : K → K) (hrs : IsRsqrt rs) (p0 : vector3d K) (mat : matrix4 K)
    (F : SViewFrustum K)
    (hn : ∀ i : Fin 6, (rawPlane mat i).Normal ≠ vector3d.zero)
    (P : vector3d K) (hP : mat.strictlyInside P) (i : Fin 6) :
    ((F.setFrom rs p0 mat).planes i).classify P < 0 := by
  have hr := (hrs _ (getLengthSQ_pos _ (hn i))).1
  rw [setFrom_planes, classify_scale]
  obtain ⟨h0, h1, h2, h3, h4, h5⟩ := rawPlane_classify mat P
  obtain ⟨a, b, c, d, e, f⟩ := hP
  have hraw : 0 < (rawPlane mat i).classify P := by
    fin_cases i
    · show 0 < (rawPlane mat 0).classify P
      rw [h0]; linarith
    · show 0 < (rawPlane mat 1).classify P
      rw [h1]; linarith
    · show 0 < (rawPlane mat 2).classify P
      rw [h2]; linarith
    · show 0 < (rawPlane mat 3).classify P
      rw [h3]; linarith
    · show 0 < (rawPlane mat 4).classify P
      rw [h4]; linarith
    · show 0 < (rawPlane mat 5).classify P
      rw [h5]; linarith
  nlinarith [mul_pos hr hraw]

/-- The identity matrix is the orthographic projection of width 2, height 2, near 0 and
far 1. -/
theorem identityMatrix_eq_ortho : (identityMatrix : matrix4 ℝ) = orthoMatrix 2 2 0 1 := by
  simp only [identityMatrix, orthoMatrix]
  congr 1
  funext k
  fin_cases k <;> norm_num

/-- The point `(0, 0, 1/2)` is strictly inside the clip volume of the identity matrix. -/
theorem strictlyInside_identity :
    (identityMatrix : matrix4 ℝ).strictlyInside ⟨0, 0, 1 / 2⟩ := by
  simp only [matrix4.strictlyInside, matrix4.clip, matrix4.fourVector, identityMatrix]
  norm_num

/-- With a non-zero triple product the helper succeeds and its point lies on the three
planes and is the only such point. -/
theorem getIntersectionWithPlanes_unique (a b c : plane3d K) (p0 : vector3d K)
    (hdet : tripleProduct a.Normal b.Normal c.Normal ≠ 0) :
    isUniqueIntersection a b c (a.getIntersectionWithPlanes b c p0).2 := by
  obtain ⟨⟨ax, ay, az⟩, ad⟩ := a
  obtain ⟨⟨bx, b_y, bz⟩, bd⟩ := b
  obtain ⟨⟨cx, cy, cz⟩, cd⟩ := c
  simp only [tripleProduct, vector3d.dotProduct, vector3d.crossProduct] at hdet
  simp only [isUniqueIntersection, plane3d.getIntersectionWithPlanes, vector3d.dotProduct,
    vector3d.crossProduct, if_neg hdet, plane3d.classify, vector3d.scale, vector3d.add]
  refine ⟨?_, ?_, ?_, ?_⟩
  · field_simp
    ring
  · field_simp
    ring
  · field_simp
    ring
  · rintro ⟨qx, qy, qz⟩ h1 h2 h3
    simp only at h1 h2 h3
    simp only [vector3d.mk.injEq]
    refine ⟨?_, ?_, ?_⟩
    · field_simp
      linear_combination (b_y * cz - bz * cy) * h1 + (cy * az - cz * ay) * h2
        + (ay * bz - az * b_y) * h3
    · field_simp
      linear_combination (bz * cx - bx * cz) * h1 + (cz * ax - cx * az) * h2
        + (az * bx - ax * bz) * h3
    · field_simp
      linear_combination (bx * cy - b_y * cx) * h1 + (cx * ay - cy * ax) * h2
        + (ax * b_y - ay * bx) * h3

/-- With a zero triple product the helper fails and hands the out-parameter back. -/
theorem getIntersectionWithPlanes_dependent (a b c : plane3d K) (p0 : vector3d K)
    (hdet : tripleProduct a.Normal b.Normal c.Normal = 0) :
    a.getIntersectionWithPlanes b c p0 = (false, p0) := by
  simp only [tripleProduct] at hdet
  simp only [plane3d.getIntersectionWithPlanes, hdet, if_true]

/-- Three vectors are linearly independent exactly when their triple product is not
zero. -/
theorem linearlyIndependent3_iff (a b c : vector3d K) :
    linearlyIndependent3 a b c ↔ tripleProduct a b c ≠ 0 := by
  obtain ⟨ax, ay, az⟩ := a
  obtain ⟨bx, b_y, bz⟩ := b
  obtain ⟨cx, cy, cz⟩ := c
  constructor
  · intro h hdet
    have hM : (!![ax, bx, cx; ay, b_y, cy; az, bz, cz] : Matrix (Fin 3) (Fin 3) K).det = 0 := by
      simp only [tripleProduct, vector3d.dotProduct, vector3d.crossProduct] at hdet
      simp [Matrix.det_fin_three]
      linear_combination hdet
    obtain ⟨v, hv, hMv⟩ := Matrix.exists_mulVec_eq_zero_iff.mpr hM
    have e0 := congrFun hMv 0
    have e1 := congrFun hMv 1
    have e2 := congrFun hMv 2
    simp [Matrix.mulVec, Matrix.dotProduct, Fin.sum_univ_three] at e0 e1 e2
    have hz := h (v 0) (v 1) (v 2) (by
      simp only [vector3d.scale, vector3d.add, vector3d.zero, vector3d.mk.injEq]
      exact ⟨by linear_combination e0, by linear_combination e1,
        by linear_combination e2⟩)
    apply hv
    funext i
    fin_cases i
    · exact hz.1
    · exact hz.2.1
    · exact hz.2.2
  · intro hdet x y z h
    simp only [tripleProduct, vector3d.dotProduct, vector3d.crossProduct] at hdet
    simp only [vector3d.scale, vector3d.add, vector3d.zero, vector3d.mk.injEq] at h
    obtain ⟨h1, h2, h3⟩ := h
    refine ⟨?_, ?_, ?_⟩
    · have : x * (ax * (b_y * cz - bz * cy) + ay * (bz * cx - bx * cz)
          + az * (bx * cy - b_y * cx)) = 0 := by
        linear_combination (b_y * cz - bz * cy) * h1 + (bz * cx - bx * cz) * h2
          + (bx * cy - b_y * cx) * h3
      exact (mul_eq_zero.mp this).resolve_right hdet
    · have : y * (ax * (b_y * cz - bz * cy) + ay * (bz * cx - bx * cz)
          + az * (bx * cy - b_y * cx)) = 0 := by
        linear_combination (cy * az - cz * ay) * h1 + (cz * ax - cx * az) * h2
          + (cx * ay - cy * ax) * h3
      exact (mul_eq_zero.mp this).resolve_right hdet
    · have : z * (ax * (b_y * cz - bz * cy) + ay * (bz * cx - bx * cz)
          + az * (bx * cy - b_y * cx)) = 0 := by
        linear_combination (ay * bz - az * b_y) * h1 + (az * bx - ax * bz) * h2
          + (ax * b_y - ay * bx) * h3
      exact (mul_eq_zero.mp this).resolve_right hdet

/-- The box of minima and maxima of five points is the tightest box around them. -/
theorem boundsOfFive_isTightestAround (c p1 p2 p3 p4 : vector3d K) :
    (boundsOfFive c p1 p2 p3 p4).isTightestAround c p1 p2 p3 p4 := by
  refine ⟨rfl, ?_, ?_, ?_, ?_, ?_, ?_⟩
  · simp [aabbox3d.contains, boundsOfFive]
  · simp [aabbox3d.contains, boundsOfFive]
  · simp [aabbox3d.contains, boundsOfFive]
  · simp [aabbox3d.contains, boundsOfFive]
  · simp [aabbox3d.contains, boundsOfFive]
  · intro B hc h1 h2 h3 h4
    simp only [aabbox3d.contains] at hc h1 h2 h3 h4
    simp only [aabbox3d.within, boundsOfFive, le_min_iff, max_le_iff]
    tauto

/-- The box that `recalculateBoundingBox` stores, whatever the box was before. -/
theorem recalculateBoundingBox_boundingBox (p0 : vector3d K) (F : SViewFrustum K) :
    (F.recalculateBoundingBox p0).boundingBox
      = boundsOfFive F.cameraPosition (F.getFarLeftUp p0) (F.getFarRightUp p0)
          (F.getFarLeftDown p0) (F.getFarRightDown p0) :=
  rfl

/-- C4: when the normals of the far plane and of the two planes a corner query names are
linearly independent, the query returns the one and only point on the three planes:
far, top, left for `getFarLeftUp`; far, bottom, left for `getFarLeftDown`; far, top,
right for `getFarRightUp`; far, bottom, right for `getFarRightDown`. The queries are
functions of the frustum that return a point and nothing else, so none changes it. -/
theorem corner_queries_return_unique_intersection (p0 : vector3d K) (F : SViewFrustum K) :
    (linearlyIndependent3 (F.planes VF_FAR_PLANE).Normal (F.planes VF_TOP_PLANE).Normal
        (F.planes VF_LEFT_PLANE).Normal →
      isUniqueIntersection (F.planes VF_FAR_PLANE) (F.planes VF_TOP_PLANE)
        (F.planes VF_LEFT_PLANE) (F.getFarLeftUp p0)) ∧
    (linearlyIndependent3 (F.planes VF_FAR_PLANE).Normal (F.planes VF_BOTTOM_PLANE).Normal
        (F.planes VF_LEFT_PLANE).Normal →
      isUniqueIntersection (F.planes VF_FAR_PLANE) (F.planes VF_BOTTOM_PLANE)
        (F.planes VF_LEFT_PLANE) (F.getFarLeftDown p0)) ∧
    (linearlyIndependent3 (F.planes VF_FAR_PLANE).Normal (F.planes VF_TOP_PLANE).Normal
        (F.planes VF_RIGHT_PLANE).Normal →
      isUniqueIntersection (F.planes VF_FAR_PLANE) (F.planes VF_TOP_PLANE)
        (F.planes VF_RIGHT_PLANE) (F.getFarRightUp p0)) ∧
    (linearlyIndependent3 (F.planes VF_FAR_PLANE).Normal (F.planes VF_BOTTOM_PLANE).Normal
        (F.planes VF_RIGHT_PLANE).Normal →
      isUniqueIntersection (F.planes VF_FAR_PLANE) (F.planes VF_BOTTOM_PLANE)
        (F.planes VF_RIGHT_PLANE) (F.getFarRightDown p0)) :=
  ⟨fun h => getIntersectionWithPlanes_unique _ _ _ p0 ((linearlyIndependent3_iff _ _ _).mp h),
   fun h => getIntersectionWithPlanes_unique _ _ _ p0 ((linearlyIndependent3_iff _ _ _).mp h),
   fun h => getIntersectionWithPlanes_unique _ _ _ p0 ((linearlyIndependent3_iff _ _ _).mp h),
   fun h => getIntersectionWithPlanes_unique _ _ _ p0 ((linearlyIndependent3_iff _ _ _).mp h)⟩

/-- The far, top and left normals of the unit box are linearly independent. -/
theorem unitBoxFrustum_independent :
    linearlyIndependent3 ((unitBoxFrustum : SViewFrustum ℚ).planes VF_FAR_PLANE).Normal
      (unitBoxFrustum.planes VF_TOP_PLANE).Normal
      (unitBoxFrustum.planes VF_LEFT_PLANE).Normal := by
  rw [linearlyIndependent3_iff]
  simp [unitBoxFrustum, frustumOfPlanes, tripleProduct, vector3d.dotProduct,
    vector3d.crossProduct]

/-- C4, at the unit box: the far-left-up corner is `(-1, 1, 1)`, the only point on the
far, top and left planes. -/
theorem corner_queries_return_unique_intersection_witness :
    linearlyIndependent3 ((unitBoxFrustum : SViewFrustum ℚ).planes VF_FAR_PLANE).Normal
      (unitBoxFrustum.planes VF_TOP_PLANE).Normal
      (unitBoxFrustum.planes VF_LEFT_PLANE).Normal ∧
    isUniqueIntersection ((unitBoxFrustum : SViewFrustum ℚ).planes VF_FAR_PLANE)
      (unitBoxFrustum.planes VF_TOP_PLANE) (unitBoxFrustum.planes VF_LEFT_PLANE)
      ((unitBoxFrustum : SViewFrustum ℚ).getFarLeftUp vector3d.zero) :=
  ⟨unitBoxFrustum_independent,
    (corner_queries_return_unique_intersection vector3d.zero
      (unitBoxFrustum : SViewFrustum ℚ)).1 unitBoxFrustum_independent⟩

/-- Scaling the three vectors multiplies the triple product by the three factors. -/
theorem tripleProduct_scale (a b c : vector3d K) (sa sb sc : K) :
    tripleProduct (a.scale sa) (b.scale sb) (c.scale sc)
      = sa * sb * sc * tripleProduct a b c := by
  simp only [tripleProduct, vector3d.dotProduct, vector3d.crossProduct, vector3d.scale]
  ring

/-- A point on three planes with independent normals is what the helper returns. -/
theorem getIntersectionWithPlanes_eq_of_on_planes (a b c : plane3d K) (p0 T : vector3d K)
    (hdet : tripleProduct a.Normal b.Normal c.Normal ≠ 0)
    (ha : a.classify T = 0) (hb : b.classify T = 0) (hc : c.classify T = 0) :
    (a.getIntersectionWithPlanes b c p0).2 = T :=
  ((getIntersectionWithPlanes_unique a b c p0 hdet).2.2.2 T ha hb hc).symm

/-- The intersection of three planes built by `setFrom` is the intersection of their raw
coefficient planes. -/
theorem setFrom_intersection_eq (rs : K → K) (hrs : IsRsqrt rs) (p0 : vector3d K)
    (mat : matrix4 K) (F : SViewFrustum K) (i j k : Fin 6) (T : vector3d K)
    (hn : ∀ i : Fin 6, (rawPlane mat i).Normal ≠ vector3d.zero)
    (hdet : tripleProduct (rawPlane mat i).Normal (rawPlane mat j).Normal
      (rawPlane mat k).Normal ≠ 0)
    (hi : (rawPlane mat i).classify T = 0) (hj : (rawPlane mat j).classify T = 0)
    (hk : (rawPlane mat k).classify T = 0) :
    (((F.setFrom rs p0 mat).planes i).getIntersectionWithPlanes
      ((F.setFrom rs p0 mat).planes j) ((F.setFrom rs p0 mat).planes k) p0).2 = T := by
  have hri := (hrs _ (getLengthSQ_pos _ (hn i))).1
  have hrj := (hrs _ (getLengthSQ_pos _ (hn j))).1
  have hrk := (hrs _ (getLengthSQ_pos _ (hn k))).1
  apply getIntersectionWithPlanes_eq_of_on_planes
  · rw [setFrom_planes, setFrom_planes, setFrom_planes]
    simp only [plane3d.scale]
    rw [tripleProduct_scale]
    exact mul_ne_zero (mul_ne_zero (mul_ne_zero (neg_ne_zero.mpr hri.ne')
      (neg_ne_zero.mpr hrj.ne')) (neg_ne_zero.mpr hrk.ne')) hdet
  · rw [setFrom_planes, classify_scale, hi, mul_zero]
  · rw [setFrom_planes, classify_scale, hj, mul_zero]
  · rw [setFrom_planes, classify_scale, hk, mul_zero]

/-- The raw plane normals of an orthographic projection matrix are non-zero. -/
theorem rawPlane_ortho_ne_zero (w h n f : K) (hw : 0 < w) (hh : 0 < h) (hnf : n < f)
    (i : Fin 6) : (rawPlane (orthoMatrix w h n f) i).Normal ≠ vector3d.zero := by
  have hw0 : (2 : K) / w ≠ 0 := div_ne_zero two_ne_zero hw.ne'
  have hh0 : (2 : K) / h ≠ 0 := div_ne_zero two_ne_zero hh.ne'
  have hfn : f - n ≠ 0 := (sub_pos.mpr hnf).ne'
  fin_cases i <;>
    simp only [rawPlane, matrix4.fourVector, orthoMatrix, plane3d.add, plane3d.sub,
      vector3d.add, vector3d.zero, ne_eq, vector3d.mk.injEq, not_and] <;>
    simp [hw0, hh0, hfn, hw.ne', hh.ne']

/-- C8: for the orthographic projection matrix of width `w > 0`, height `h > 0`, near `n`
and far `f > n`, after `setFrom` the four far-corner queries return the corners of the
far face: left-up `(-w/2, h/2, f)`, left-down `(-w/2, -h/2, f)`, right-up
`(w/2, h/2, f)`, right-down `(w/2, -h/2, f)`. -/
theorem setFrom_ortho_far_corners (rs : K → K) (hrs : IsRsqrt rs) (p0 : vector3d K)
    (F : SViewFrustum K) (w h n f : K) (hw : 0 < w) (hh : 0 < h) (hnf : n < f) :
    (F.setFrom rs p0 (orthoMatrix w h n f)).getFarLeftUp p0 = ⟨-w / 2, h / 2, f⟩ ∧
    (F.setFrom rs p0 (orthoMatrix w h n f)).getFarLeftDown p0 = ⟨-w / 2, -h / 2, f⟩ ∧
    (F.setFrom rs p0 (orthoMatrix w h n f)).getFarRightUp p0 = ⟨w / 2, h / 2, f⟩ ∧
    (F.setFrom rs p0 (orthoMatrix w h n f)).getFarRightDown p0 = ⟨w / 2, -h / 2, f⟩ := by
  have hn := rawPlane_ortho_ne_zero w h n f hw hh hnf
  have hfn : f - n ≠ 0 := (sub_pos.mpr hnf).ne'
  have hnf' : n - f ≠ 0 := (sub_neg.mpr hnf).ne
  have hw' := hw.ne'
  have hh' := hh.ne'
  refine ⟨?_, ?_, ?_, ?_⟩
  · refine setFrom_intersection_eq rs hrs p0 _ F VF_FAR_PLANE VF_TOP_PLANE VF_LEFT_PLANE _ hn
      ?_ ?_ ?_ ?_
    · simp [rawPlane, matrix4.fourVector, orthoMatrix, plane3d.add, plane3d.sub,
        vector3d.add, tripleProduct, vector3d.dotProduct, vector3d.crossProduct, hw', hh', hfn]
    all_goals
      simp only [rawPlane, matrix4.fourVector, orthoMatrix, plane3d.add, plane3d.sub,
        vector3d.add, plane3d.classify, vector3d.dotProduct]
      field_simp
      ring
  · refine setFrom_intersection_eq rs hrs p0 _ F VF_FAR_PLANE VF_BOTTOM_PLANE VF_LEFT_PLANE _
      hn ?_ ?_ ?_ ?_
    · simp [rawPlane, matrix4.fourVector, orthoMatrix, plane3d.add, plane3d.sub,
        vector3d.add, tripleProduct, vector3d.dotProduct, vector3d.crossProduct, hw', hh', hfn]
    all_goals
      simp only [rawPlane, matrix4.fourVector, orthoMatrix, plane3d.add, plane3d.sub,
        vector3d.add, plane3d.classify, vector3d.dotProduct]
      field_simp
      ring
  · refine setFrom_intersection_eq rs hrs p0 _ F VF_FAR_PLANE VF_TOP_PLANE VF_RIGHT_PLANE _
      hn ?_ ?_ ?_ ?_
    · simp [rawPlane, matrix4.fourVector, orthoMatrix, plane3d.add, plane3d.sub,
        vector3d.add, tripleProduct, vector3d.dotProduct, vector3d.crossProduct, hw', hh', hfn]
    all_goals
      simp only [rawPlane, matrix4.fourVector, orthoMatrix, plane3d.add, plane3d.sub,
        vector3d.add, plane3d.classify, vector3d.dotProduct]
      field_simp
      ring
  · refine setFrom_intersection_eq rs hrs p0 _ F VF_FAR_PLANE VF_BOTTOM_PLANE VF_RIGHT_PLANE _
      hn ?_ ?_ ?_ ?_
    · simp [rawPlane, matrix4.fourVector, orthoMatrix, plane3d.add, plane3d.sub,
        vector3d.add, tripleProduct, vector3d.dotProduct, vector3d.crossProduct, hw', hh', hfn]
    all_goals
      simp only [rawPlane, matrix4.fourVector, orthoMatrix, plane3d.add, plane3d.sub,
        vector3d.add, plane3d.classify, vector3d.dotProduct]
      field_simp
      ring

/-- C8, at the identity matrix (width 2, height 2, near 0, far 1) over the reals: the
far-left-up corner is `(-1, 1, 1)`. -/
theorem setFrom_ortho_far_corners_witness :
    IsRsqrt (fun x : ℝ => (Real.sqrt x)⁻¹) ∧ (0 : ℝ) < 2 ∧ (0 : ℝ) < 1 ∧
    (SViewFrustum.blank.setFrom (fun x : ℝ => (Real.sqrt x)⁻¹) vector3d.zero
      (orthoMatrix 2 2 0 1)).getFarLeftUp vector3d.zero = ⟨-2 / 2, 2 / 2, 1⟩ :=
  ⟨isRsqrt_real, two_pos, one_pos,
    (setFrom_ortho_far_corners (fun x : ℝ => (Real.sqrt x)⁻¹) isRsqrt_real vector3d.zero
      SViewFrustum.blank 2 2 0 1 two_pos two_pos one_pos).1⟩

/-- The determinant of the singular example matrix is zero. -/
theorem flatMatrix_det : (flatMatrix : matrix4 ℝ).toMatrix.det = 0 := by
  apply Matrix.det_eq_zero_of_row_eq_zero 0
  intro j
  fin_cases j <;> simp [matrix4.toMatrix, flatMatrix]

/-- The raw plane normals of the singular example matrix are non-zero. -/
theorem rawPlane_flat_ne_zero (i : Fin 6) :
    (rawPlane (flatMatrix : matrix4 ℝ) i).Normal ≠ vector3d.zero := by
  fin_cases i <;>
    simp [rawPlane, matrix4.fourVector, flatMatrix, plane3d.add, plane3d.sub,
      vector3d.add, vector3d.zero]

/-- C9, refuted as stated: for a matrix of determinant zero, `setFrom` returns a frustum
as for any other matrix, here six planes with unit normals that are all parallel
(`z = 1` three times, `z = -1` twice and `z = 0`), so that no far corner exists. -/
theorem setFrom_degenerate_matrix_counterexample :
    (flatMatrix : matrix4 ℝ).toMatrix.det = 0 ∧
    (SViewFrustum.blank.setFrom (fun x : ℝ => (Real.sqrt x)⁻¹) vector3d.zero
      flatMatrix).planes = (frustumOfPlanes ⟨⟨0, 0, 1⟩, -1⟩ ⟨⟨0, 0, -1⟩, 0⟩
        ⟨⟨0, 0, -1⟩, -1⟩ ⟨⟨0, 0, 1⟩, -1⟩ ⟨⟨0, 0, -1⟩, -1⟩ ⟨⟨0, 0, 1⟩, -1⟩).planes ∧
    ¬ linearlyIndependent3
      ((SViewFrustum.blank.setFrom (fun x : ℝ => (Real.sqrt x)⁻¹) vector3d.zero
        flatMatrix).planes VF_FAR_PLANE).Normal
      ((SViewFrustum.blank.setFrom (fun x : ℝ => (Real.sqrt x)⁻¹) vector3d.zero
        flatMatrix).planes VF_TOP_PLANE).Normal
      ((SViewFrustum.blank.setFrom (fun x : ℝ => (Real.sqrt x)⁻¹) vector3d.zero
        flatMatrix).planes VF_LEFT_PLANE).Normal := by
  have hp : (SViewFrustum.blank.setFrom (fun x : ℝ => (Real.sqrt x)⁻¹) vector3d.zero
      flatMatrix).planes = (frustumOfPlanes ⟨⟨0, 0, 1⟩, -1⟩ ⟨⟨0, 0, -1⟩, 0⟩
        ⟨⟨0, 0, -1⟩, -1⟩ ⟨⟨0, 0, 1⟩, -1⟩ ⟨⟨0, 0, -1⟩, -1⟩ ⟨⟨0, 0, 1⟩, -1⟩).planes := by
    funext i
    rw [setFrom_planes]
    fin_cases i <;>
      simp [rawPlane, matrix4.fourVector, flatMatrix, plane3d.add, plane3d.sub,
        vector3d.add, plane3d.scale, vector3d.scale, vector3d.getLengthSQ,
        frustumOfPlanes]
  refine ⟨flatMatrix_det, hp, ?_⟩
  rw [hp, linearlyIndependent3_iff, not_not]
  simp [frustumOfPlanes, tripleProduct, vector3d.dotProduct, vector3d.crossProduct]

/-- C9, amended: `setFrom` checks nothing and never fails; for every matrix, singular or
not, it returns the frustum whose plane `i` is the raw coefficient vector of that plane
times `-reciprocal_squareroot` of the squared length of its normal part, with
`cameraPosition` as before the call. -/
theorem setFrom_returns_for_every_matrix (rs : K → K) (p0 : vector3d K) (mat : matrix4 K)
    (F : SViewFrustum K) :
    ∃ G : SViewFrustum K, F.setFrom rs p0 mat = G ∧
      (∀ i : Fin 6, G.planes i
        = (rawPlane mat i).scale (- rs (rawPlane mat i).Normal.getLengthSQ)) ∧
      G.cameraPosition = F.cameraPosition :=
  ⟨F.setFrom rs p0 mat, rfl, fun i => setFrom_planes rs p0 mat F i, rfl⟩

/-- Every far-corner query of `cornerAtFrustum c` has independent normals and returns
`c`. -/
theorem cornerAtFrustum_corners (c p0 : vector3d K) :
    linearlyIndependent3 ((cornerAtFrustum c).planes VF_FAR_PLANE).Normal
      ((cornerAtFrustum c).planes VF_TOP_PLANE).Normal
      ((cornerAtFrustum c).planes VF_LEFT_PLANE).Normal ∧
    linearlyIndependent3 ((cornerAtFrustum c).planes VF_FAR_PLANE).Normal
      ((cornerAtFrustum c).planes VF_BOTTOM_PLANE).Normal
      ((cornerAtFrustum c).planes VF_LEFT_PLANE).Normal ∧
    linearlyIndependent3 ((cornerAtFrustum c).planes VF_FAR_PLANE).Normal
      ((cornerAtFrustum c).planes VF_TOP_PLANE).Normal
      ((cornerAtFrustum c).planes VF_RIGHT_PLANE).Normal ∧
    linearlyIndependent3 ((cornerAtFrustum c).planes VF_FAR_PLANE).Normal
      ((cornerAtFrustum c).planes VF_BOTTOM_PLANE).Normal
      ((cornerAtFrustum c).planes VF_RIGHT_PLANE).Normal ∧
    (cornerAtFrustum c).getFarLeftUp p0 = c ∧ (cornerAtFrustum c).getFarLeftDown p0 = c ∧
    (cornerAtFrustum c).getFarRightUp p0 = c ∧ (cornerAtFrustum c).getFarRightDown p0 = c := by
  have hdet : tripleProduct (⟨0, 0, 1⟩ : vector3d K) ⟨0, 1, 0⟩ ⟨1, 0, 0⟩ ≠ 0 := by
    simp [tripleProduct, vector3d.dotProduct, vector3d.crossProduct]
  have hind := (linearlyIndependent3_iff (⟨0, 0, 1⟩ : vector3d K) ⟨0, 1, 0⟩ ⟨1, 0, 0⟩).mpr hdet
  have hc : ((⟨⟨0, 0, 1⟩, -c.Z⟩ : plane3d K).getIntersectionWithPlanes ⟨⟨0, 1, 0⟩, -c.Y⟩
      ⟨⟨1, 0, 0⟩, -c.X⟩ p0).2 = c := by
    apply getIntersectionWithPlanes_eq_of_on_planes _ _ _ _ _ hdet <;>
      simp [plane3d.classify, vector3d.dotProduct]
  exact ⟨hind, hind, hind, hind, hc, hc, hc, hc⟩

/-- The left plane of `leftParallelToFarFrustum` makes the far, top and left normals
linearly dependent. -/
theorem leftParallelToFarFrustum_dependent :
    ¬ linearlyIndependent3 ((leftParallelToFarFrustum : SViewFrustum ℚ).planes VF_FAR_PLANE).Normal
      (leftParallelToFarFrustum.planes VF_TOP_PLANE).Normal
      (leftParallelToFarFrustum.planes VF_LEFT_PLANE).Normal := by
  rw [linearlyIndependent3_iff, not_not]
  simp [leftParallelToFarFrustum, frustumOfPlanes, tripleProduct, vector3d.dotProduct,
    vector3d.crossProduct]

/-- C10, refuted as stated: with the left plane parallel to the far plane the far, top
and left normals are linearly dependent, and `getFarLeftUp` returns the point
`(0, 0, 0)`, the very point it returns as the valid far-left-up corner of the frustum
whose far, top and left planes are `z = 0`, `y = 0` and `x = 0`; the caller cannot tell
the two apart. -/
theorem getFarLeftUp_dependent_counterexample :
    ¬ linearlyIndependent3 ((leftParallelToFarFrustum : SViewFrustum ℚ).planes VF_FAR_PLANE).Normal
      (leftParallelToFarFrustum.planes VF_TOP_PLANE).Normal
      (leftParallelToFarFrustum.planes VF_LEFT_PLANE).Normal ∧
    (leftParallelToFarFrustum : SViewFrustum ℚ).getFarLeftUp vector3d.zero = ⟨0, 0, 0⟩ ∧
    linearlyIndependent3
      ((cornerAtFrustum (vector3d.zero : vector3d ℚ)).planes VF_FAR_PLANE).Normal
      ((cornerAtFrustum (vector3d.zero : vector3d ℚ)).planes VF_TOP_PLANE).Normal
      ((cornerAtFrustum (vector3d.zero : vector3d ℚ)).planes VF_LEFT_PLANE).Normal ∧
    (cornerAtFrustum (vector3d.zero : vector3d ℚ)).getFarLeftUp vector3d.zero = ⟨0, 0, 0⟩ :=
  ⟨leftParallelToFarFrustum_dependent,
    congrArg Prod.snd (getIntersectionWithPlanes_dependent _ _ _ vector3d.zero
      (not_not.mp (mt (linearlyIndependent3_iff _ _ _).mpr leftParallelToFarFrustum_dependent))),
    (cornerAtFrustum_corners vector3d.zero vector3d.zero).1,
    (cornerAtFrustum_corners vector3d.zero vector3d.zero).2.2.2.2.1⟩

/-- C10, amended: when the normals of the far plane and of the two planes a corner query
names are linearly dependent, the query signals nothing and returns an ordinary point,
the value `p0` of its default-constructed local `p`, which the failing helper hands
back; this holds for all four queries, and `p0` is at the same time the valid result of
all four queries on another frustum. -/
theorem corner_queries_return_local_point_when_dependent (p0 : vector3d K)
    (F : SViewFrustum K) :
    (¬ linearlyIndependent3 (F.planes VF_FAR_PLANE).Normal (F.planes VF_TOP_PLANE).Normal
        (F.planes VF_LEFT_PLANE).Normal → F.getFarLeftUp p0 = p0) ∧
    (¬ linearlyIndependent3 (F.planes VF_FAR_PLANE).Normal (F.planes VF_BOTTOM_PLANE).Normal
        (F.planes VF_LEFT_PLANE).Normal → F.getFarLeftDown p0 = p0) ∧
    (¬ linearlyIndependent3 (F.planes VF_FAR_PLANE).Normal (F.planes VF_TOP_PLANE).Normal
        (F.planes VF_RIGHT_PLANE).Normal → F.getFarRightUp p0 = p0) ∧
    (¬ linearlyIndependent3 (F.planes VF_FAR_PLANE).Normal (F.planes VF_BOTTOM_PLANE).Normal
        (F.planes VF_RIGHT_PLANE).Normal → F.getFarRightDown p0 = p0) ∧
    (∃ G : SViewFrustum K,
      linearlyIndependent3 (G.planes VF_FAR_PLANE).Normal (G.planes VF_TOP_PLANE).Normal
        (G.planes VF_LEFT_PLANE).Normal ∧
      linearlyIndependent3 (G.planes VF_FAR_PLANE).Normal (G.planes VF_BOTTOM_PLANE).Normal
        (G.planes VF_LEFT_PLANE).Normal ∧
      linearlyIndependent3 (G.planes VF_FAR_PLANE).Normal (G.planes VF_TOP_PLANE).Normal
        (G.planes VF_RIGHT_PLANE).Normal ∧
      linearlyIndependent3 (G.planes VF_FAR_PLANE).Normal (G.planes VF_BOTTOM_PLANE).Normal
        (G.planes VF_RIGHT_PLANE).Normal ∧
      G.getFarLeftUp p0 = p0 ∧ G.getFarLeftDown p0 = p0 ∧
      G.getFarRightUp p0 = p0 ∧ G.getFarRightDown p0 = p0) := by
  have key : ∀ a b c : plane3d K, ¬ linearlyIndependent3 a.Normal b.Normal c.Normal →
      (a.getIntersectionWithPlanes b c p0).2 = p0 := by
    intro a b c h
    have hdet : tripleProduct a.Normal b.Normal c.Normal = 0 :=
      not_not.mp (mt (linearlyIndependent3_iff _ _ _).mpr h)
    rw [getIntersectionWithPlanes_dependent a b c p0 hdet]
  exact ⟨key _ _ _, key _ _ _, key _ _ _, key _ _ _, cornerAtFrustum p0,
    cornerAtFrustum_corners p0 p0⟩

/-- C10 amended, at the frustum whose left plane is parallel to its far plane. -/
theorem corner_queries_return_local_point_when_dependent_witness :
    ¬ linearlyIndependent3 ((leftParallelToFarFrustum : SViewFrustum ℚ).planes VF_FAR_PLANE).Normal
      (leftParallelToFarFrustum.planes VF_TOP_PLANE).Normal
      (leftParallelToFarFrustum.planes VF_LEFT_PLANE).Normal ∧
    (leftParallelToFarFrustum : SViewFrustum ℚ).getFarLeftUp ⟨7, 8, 9⟩ = ⟨7, 8, 9⟩ :=
  ⟨leftParallelToFarFrustum_dependent,
    (corner_queries_return_local_point_when_dependent ⟨7, 8, 9⟩
      (leftParallelToFarFrustum : SViewFrustum ℚ)).1 leftParallelToFarFrustum_dependent⟩

/-- A matrix of non-zero determinant times its cofactor-form inverse is the identity. -/
theorem mul_cofactorInverse (A : Matrix (Fin 4) (Fin 4) K) (h : A.det ≠ 0) :
    A * ((A.det)⁻¹ • A.adjugate) = 1 := by
  rw [Matrix.mul_smul, Matrix.mul_adjugate, smul_smul, inv_mul_cancel₀ h, one_smul]

/-- After `setFrom` a plane is non-positive at a point exactly when its raw coefficients
are non-negative there. -/
theorem setFrom_classify_nonpos_iff (rs : K → K) (hrs : IsRsqrt rs) (p0 : vector3d K)
    (mat : matrix4 K) (F : SViewFrustum K)
    (hn : ∀ i : Fin 6, (rawPlane mat i).Normal ≠ vector3d.zero) (P : vector3d K)
    (i : Fin 6) :
    ((F.setFrom rs p0 mat).planes i).classify P ≤ 0 ↔ 0 ≤ (rawPlane mat i).classify P := by
  have hr := (hrs _ (getLengthSQ_pos _ (hn i))).1
  rw [setFrom_planes, classify_scale, neg_mul, neg_nonpos]
  exact ⟨fun h => nonneg_of_mul_nonneg_right h hr, fun h => mul_nonneg hr.le h⟩

/-- C12: for a matrix whose six raw plane normals are non-zero and every point `P` with
clip coordinates `c_k`, the sign test `dot(Normal, P) + D` is `<= 0` on all six planes
built by `setFrom` if and only if `-c_3 <= c_0 <= c_3`, `-c_3 <= c_1 <= c_3` and
`0 <= c_2 <= c_3`: the visible volume is the intersection of the non-positive sides. -/
theorem setFrom_planes_face_outward (rs : K → K) (hrs : IsRsqrt rs) (p0 : vector3d K)
    (mat : matrix4 K) (F : SViewFrustum K)
    (hn : ∀ i : Fin 6, (rawPlane mat i).Normal ≠ vector3d.zero) (P : vector3d K) :
    (∀ i : Fin 6, ((F.setFrom rs p0 mat).planes i).classify P ≤ 0) ↔
      (- mat.clip P 3 ≤ mat.clip P 0 ∧ mat.clip P 0 ≤ mat.clip P 3 ∧
       - mat.clip P 3 ≤ mat.clip P 1 ∧ mat.clip P 1 ≤ mat.clip P 3 ∧
       0 ≤ mat.clip P 2 ∧ mat.clip P 2 ≤ mat.clip P 3) := by
  obtain ⟨h0, h1, h2, h3, h4, h5⟩ := rawPlane_classify mat P
  have key := setFrom_classify_nonpos_iff rs hrs p0 mat F hn P
  constructor
  · intro h
    have e0 := (key 0).mp (h 0)
    have e1 := (key 1).mp (h 1)
    have e2 := (key 2).mp (h 2)
    have e3 := (key 3).mp (h 3)
    have e4 := (key 4).mp (h 4)
    have e5 := (key 5).mp (h 5)
    rw [h0] at e0
    rw [h1] at e1
    rw [h2] at e2
    rw [h3] at e3
    rw [h4] at e4
    rw [h5] at e5
    refine ⟨?_, ?_, ?_, ?_, ?_, ?_⟩ <;> linarith
  · rintro ⟨a, b, c, d, e, f⟩ i
    rw [key i]
    fin_cases i
    · show 0 ≤ (rawPlane mat 0).classify P
      rw [h0]; linarith
    · show 0 ≤ (rawPlane mat 1).classify P
      rw [h1]; linarith
    · show 0 ≤ (rawPlane mat 2).classify P
      rw [h2]; linarith
    · show 0 ≤ (rawPlane mat 3).classify P
      rw [h3]; linarith
    · show 0 ≤ (rawPlane mat 4).classify P
      rw [h4]; linarith
    · show 0 ≤ (rawPlane mat 5).classify P
      rw [h5]; linarith

/-- C12, at the identity matrix over the reals and the point `(0, 0, 1/2)`. -/
theorem setFrom_planes_face_outward_witness :
    IsRsqrt (fun x : ℝ => (Real.sqrt x)⁻¹) ∧
    (∀ i : Fin 6, (rawPlane (identityMatrix : matrix4 ℝ) i).Normal ≠ vector3d.zero) ∧
    ((∀ i : Fin 6, ((SViewFrustum.blank.setFrom (fun x : ℝ => (Real.sqrt x)⁻¹)
        vector3d.zero identityMatrix).planes i).classify ⟨0, 0, 1 / 2⟩ ≤ 0) ↔
      (- (identityMatrix : matrix4 ℝ).clip ⟨0, 0, 1 / 2⟩ 3
          ≤ (identityMatrix : matrix4 ℝ).clip ⟨0, 0, 1 / 2⟩ 0 ∧
       (identityMatrix : matrix4 ℝ).clip ⟨0, 0, 1 / 2⟩ 0
          ≤ (identityMatrix : matrix4 ℝ).clip ⟨0, 0, 1 / 2⟩ 3 ∧
       - (identityMatrix : matrix4 ℝ).clip ⟨0, 0, 1 / 2⟩ 3
          ≤ (identityMatrix : matrix4 ℝ).clip ⟨0, 0, 1 / 2⟩ 1 ∧
       (identityMatrix : matrix4 ℝ).clip ⟨0, 0, 1 / 2⟩ 1
          ≤ (identityMatrix : matrix4 ℝ).clip ⟨0, 0, 1 / 2⟩ 3 ∧
       0 ≤ (identityMatrix : matrix4 ℝ).clip ⟨0, 0, 1 / 2⟩ 2 ∧
       (identityMatrix : matrix4 ℝ).clip ⟨0, 0, 1 / 2⟩ 2
          ≤ (identityMatrix : matrix4 ℝ).clip ⟨0, 0, 1 / 2⟩ 3)) :=
  ⟨isRsqrt_real, rawPlane_identity_ne_zero,
    setFrom_planes_face_outward (fun x : ℝ => (Real.sqrt x)⁻¹) isRsqrt_real
      vector3d.zero identityMatrix SViewFrustum.blank rawPlane_identity_ne_zero
      ⟨0, 0, 1 / 2⟩⟩

/-- Writing a table back as scalars and reading it as a table gives the table. -/
theorem toMatrix_ofMatrix {α : Type} (A : Matrix (Fin 4) (Fin 4) α) :
    (matrix4.ofMatrix A).toMatrix = A := by
  ext i j
  fin_cases i <;> fin_cases j <;> rfl

/-- The table of the identity matrix is the unit matrix. -/
theorem identityMatrix_toMatrix : (identityMatrix : matrix4 K).toMatrix = 1 := by
  ext i j
  fin_cases i <;> fin_cases j <;> simp [matrix4.toMatrix, identityMatrix]

/-- The table of the matrix of zeros is the zero matrix. -/
theorem zeroMatrix_toMatrix : (⟨fun _ => 0⟩ : matrix4 K).toMatrix = 0 := by
  ext i j
  fin_cases i <;> fin_cases j <;> rfl

/-- The method `setTransformState` assigns to `Matrices` only. -/
theorem setTransformState_frame (e : E_TRANSFORMATION_STATE) (state : Nat)
    (F : SViewFrustum K) :
    (F.setTransformState e state).planes = F.planes ∧
    (F.setTransformState e state).cameraPosition = F.cameraPosition ∧
    (F.setTransformState e state).boundingBox = F.boundingBox := by
  unfold SViewFrustum.setTransformState
  split_ifs <;> exact ⟨rfl, rfl, rfl⟩

/-- An index other than the three cache indices keeps its matrix. -/
theorem setTransformState_Matrices_of_ne (e : E_TRANSFORMATION_STATE) (state : Nat)
    (F : SViewFrustum K) (k : Nat) (h1 : k ≠ ETS_VIEW_PROJECTION_3 e)
    (h2 : k ≠ ETS_VIEW_MODEL_INVERSE_3 e) (h3 : k ≠ ETS_CURRENT_3 e) :
    (F.setTransformState e state).Matrices k = F.Matrices k := by
  unfold SViewFrustum.setTransformState
  split_ifs
  · simp only [Function.update_noteq h2, Function.update_noteq h1]
  · simp only [Function.update_noteq h3]
  · rfl

/-- The view-projection cache after the view event. -/
theorem setTransformState_view_projection (e : E_TRANSFORMATION_STATE)
    (F : SViewFrustum K) :
    (F.setTransformState e e.ETS_VIEW).Matrices (ETS_VIEW_PROJECTION_3 e)
      = matrix4.setbyproduct_nocheck (F.Matrices e.ETS_PROJECTION)
          (F.Matrices e.ETS_VIEW) := by
  have h : ETS_VIEW_PROJECTION_3 e ≠ ETS_VIEW_MODEL_INVERSE_3 e := by
    simp [ETS_VIEW_MODEL_INVERSE_3]
  simp only [SViewFrustum.setTransformState, if_true, Function.update_noteq h,
    Function.update_same]

/-- The inverse-view cache after the view event. -/
theorem setTransformState_view_inverse (e : E_TRANSFORMATION_STATE)
    (hv : e.ETS_VIEW ≠ ETS_VIEW_PROJECTION_3 e) (F : SViewFrustum K) :
    (F.setTransformState e e.ETS_VIEW).Matrices (ETS_VIEW_MODEL_INVERSE_3 e)
      = (F.Matrices e.ETS_VIEW).makeInverse := by
  simp only [SViewFrustum.setTransformState, if_true, Function.update_noteq hv,
    Function.update_same]

/-- The current-transform cache after the world event. -/
theorem setTransformState_world_current (e : E_TRANSFORMATION_STATE)
    (hvw : e.ETS_VIEW ≠ e.ETS_WORLD) (F : SViewFrustum K) :
    (F.setTransformState e e.ETS_WORLD).Matrices (ETS_CURRENT_3 e)
      = matrix4.setbyproduct (F.Matrices (ETS_VIEW_PROJECTION_3 e))
          (F.Matrices e.ETS_WORLD) := by
  simp only [SViewFrustum.setTransformState, if_neg hvw.symm, if_true,
    Function.update_same]

/-- The state values 0, 1, 2 give six different indices. -/
theorem consecutiveStates_slotsDistinct : consecutiveStates.slotsDistinct := by
  simp [E_TRANSFORMATION_STATE.slotsDistinct, consecutiveStates, ETS_VIEW_PROJECTION_3,
    ETS_VIEW_MODEL_INVERSE_3, ETS_CURRENT_3]

/-- C11, refuted as stated: with the state values 0, 1, 2, identity matrices for
projection, view and world and a view-projection cache (index 3) holding zeros, the
world event stores the zero matrix in `Matrices[ETS_CURRENT_3]`, while the product of
the current projection, view and world entries, in either order, is the unit matrix; the
three entries themselves are unchanged. -/
theorem setTransformState_world_counterexample :
    ((staleCacheFrustum : SViewFrustum ℚ).setTransformState consecutiveStates
        consecutiveStates.ETS_WORLD).Matrices consecutiveStates.ETS_PROJECTION
      = identityMatrix ∧
    ((staleCacheFrustum : SViewFrustum ℚ).setTransformState consecutiveStates
        consecutiveStates.ETS_WORLD).Matrices consecutiveStates.ETS_VIEW = identityMatrix ∧
    ((staleCacheFrustum : SViewFrustum ℚ).setTransformState consecutiveStates
        consecutiveStates.ETS_WORLD).Matrices consecutiveStates.ETS_WORLD = identityMatrix ∧
    (((staleCacheFrustum : SViewFrustum ℚ).setTransformState consecutiveStates
        consecutiveStates.ETS_WORLD).Matrices (ETS_CURRENT_3 consecutiveStates)).toMatrix
      = 0 ∧
    (((staleCacheFrustum : SViewFrustum ℚ).setTransformState consecutiveStates
        consecutiveStates.ETS_WORLD).Matrices (ETS_CURRENT_3 consecutiveStates)).toMatrix
      ≠ (identityMatrix : matrix4 ℚ).toMatrix
          * ((identityMatrix : matrix4 ℚ).toMatrix * (identityMatrix : matrix4 ℚ).toMatrix) ∧
    (identityMatrix : matrix4 ℚ).toMatrix
        * ((identityMatrix : matrix4 ℚ).toMatrix * (identityMatrix : matrix4 ℚ).toMatrix)
      = 1 := by
  have hcur : (((staleCacheFrustum : SViewFrustum ℚ).setTransformState consecutiveStates
      consecutiveStates.ETS_WORLD).Matrices (ETS_CURRENT_3 consecutiveStates)).toMatrix
      = 0 := by
    rw [setTransformState_world_current _ consecutiveStates_slotsDistinct.1]
    have h3 : (staleCacheFrustum : SViewFrustum ℚ).Matrices
        (ETS_VIEW_PROJECTION_3 consecutiveStates) = ⟨fun _ => 0⟩ := rfl
    rw [h3, matrix4.setbyproduct, toMatrix_ofMatrix, zeroMatrix_toMatrix, mul_zero]
  have hone : (identityMatrix : matrix4 ℚ).toMatrix
      * ((identityMatrix : matrix4 ℚ).toMatrix * (identityMatrix : matrix4 ℚ).toMatrix)
      = 1 := by
    rw [identityMatrix_toMatrix, mul_one, mul_one]
  refine ⟨rfl, rfl, rfl, hcur, ?_, hone⟩
  rw [hcur, hone]
  exact zero_ne_one

/-- C11, amended: for every content of `Matrices`, with the three state values and the
three cache indices all different: after the view event `Matrices[ETS_VIEW_PROJECTION_3]`
is the product of the current projection and view entries (as tables, view times
projection) and, for an invertible view entry, `Matrices[ETS_VIEW_MODEL_INVERSE_3]` is
its inverse; after the world event `Matrices[ETS_CURRENT_3]` is the product of
`Matrices[ETS_VIEW_PROJECTION_3]` as it stands and the world entry, which after a view
event is the product of the projection, view and world entries; and every event leaves
the projection, view and world entries, the planes, `cameraPosition` and `boundingBox`
unchanged. -/
theorem setTransformState_refreshes_caches (e : E_TRANSFORMATION_STATE)
    (hd : e.slotsDistinct) (F : SViewFrustum K) :
    ((F.setTransformState e e.ETS_VIEW).Matrices (ETS_VIEW_PROJECTION_3 e)).toMatrix
      = (F.Matrices e.ETS_VIEW).toMatrix * (F.Matrices e.ETS_PROJECTION).toMatrix ∧
    ((F.Matrices e.ETS_VIEW).toMatrix.det ≠ 0 →
      (F.Matrices e.ETS_VIEW).toMatrix
          * ((F.setTransformState e e.ETS_VIEW).Matrices
              (ETS_VIEW_MODEL_INVERSE_3 e)).toMatrix = 1 ∧
      ((F.setTransformState e e.ETS_VIEW).Matrices (ETS_VIEW_MODEL_INVERSE_3 e)).toMatrix
          * (F.Matrices e.ETS_VIEW).toMatrix = 1) ∧
    ((F.setTransformState e e.ETS_WORLD).Matrices (ETS_CURRENT_3 e)).toMatrix
      = (F.Matrices e.ETS_WORLD).toMatrix
          * (F.Matrices (ETS_VIEW_PROJECTION_3 e)).toMatrix ∧
    (((F.setTransformState e e.ETS_VIEW).setTransformState e e.ETS_WORLD).Matrices
        (ETS_CURRENT_3 e)).toMatrix
      = (F.Matrices e.ETS_WORLD).toMatrix
          * ((F.Matrices e.ETS_VIEW).toMatrix * (F.Matrices e.ETS_PROJECTION).toMatrix) ∧
    (∀ state : Nat,
      (F.setTransformState e state).Matrices e.ETS_PROJECTION
        = F.Matrices e.ETS_PROJECTION ∧
      (F.setTransformState e state).Matrices e.ETS_VIEW = F.Matrices e.ETS_VIEW ∧
      (F.setTransformState e state).Matrices e.ETS_WORLD = F.Matrices e.ETS_WORLD ∧
      (F.setTransformState e state).planes = F.planes ∧
      (F.setTransformState e state).cameraPosition = F.cameraPosition ∧
      (F.setTransformState e state).boundingBox = F.boundingBox) := by
  obtain ⟨hvw, hvp, hwp, hv1, hv2, hv3, hw1, hw2, hw3⟩ := hd
  have hp1 : e.ETS_PROJECTION ≠ ETS_VIEW_PROJECTION_3 e := by
    simp only [ETS_VIEW_PROJECTION_3]
    omega
  have hp2 : e.ETS_PROJECTION ≠ ETS_VIEW_MODEL_INVERSE_3 e := by
    simp only [ETS_VIEW_MODEL_INVERSE_3, ETS_VIEW_PROJECTION_3]
    omega
  have hp3 : e.ETS_PROJECTION ≠ ETS_CURRENT_3 e := by
    simp only [ETS_CURRENT_3, ETS_VIEW_MODEL_INVERSE_3, ETS_VIEW_PROJECTION_3]
    omega
  have hvp' : ((F.setTransformState e e.ETS_VIEW).Matrices (ETS_VIEW_PROJECTION_3 e)).toMatrix
      = (F.Matrices e.ETS_VIEW).toMatrix * (F.Matrices e.ETS_PROJECTION).toMatrix := by
    rw [setTransformState_view_projection, matrix4.setbyproduct_nocheck, toMatrix_ofMatrix]
  refine ⟨hvp', fun hdet => ?_, ?_, ?_, fun state => ?_⟩
  · rw [setTransformState_view_inverse e hv1, matrix4.makeInverse, toMatrix_ofMatrix]
    have h := mul_cofactorInverse _ hdet
    exact ⟨h, Matrix.mul_eq_one_comm.mp h⟩
  · rw [setTransformState_world_current e hvw, matrix4.setbyproduct, toMatrix_ofMatrix]
  · rw [setTransformState_world_current e hvw, matrix4.setbyproduct, toMatrix_ofMatrix,
      hvp', setTransformState_Matrices_of_ne e _ F _ hw1 hw2 hw3]
  · obtain ⟨f1, f2, f3⟩ := setTransformState_frame e state F
    exact ⟨setTransformState_Matrices_of_ne e state F _ hp1 hp2 hp3,
      setTransformState_Matrices_of_ne e state F _ hv1 hv2 hv3,
      setTransformState_Matrices_of_ne e state F _ hw1 hw2 hw3, f1, f2, f3⟩

/-- C11 amended, at the state values 0, 1, 2 and the frustum whose view-projection cache
holds zeros: after the view event and the world event the current-transform cache is the
product of the three identity entries. -/
theorem setTransformState_refreshes_caches_witness :
    consecutiveStates.slotsDistinct ∧
    ((((staleCacheFrustum : SViewFrustum ℚ).setTransformState consecutiveStates
        consecutiveStates.ETS_VIEW).setTransformState consecutiveStates
          consecutiveStates.ETS_WORLD).Matrices (ETS_CURRENT_3 consecutiveStates)).toMatrix
      = ((staleCacheFrustum : SViewFrustum ℚ).Matrices consecutiveStates.ETS_WORLD).toMatrix
          * (((staleCacheFrustum : SViewFrustum ℚ).Matrices
                consecutiveStates.ETS_VIEW).toMatrix
              * ((staleCacheFrustum : SViewFrustum ℚ).Matrices
                  consecutiveStates.ETS_PROJECTION).toMatrix) :=
  ⟨consecutiveStates_slotsDistinct,
    (setTransformState_refreshes_caches consecutiveStates consecutiveStates_slotsDistinct
      (staleCacheFrustum : SViewFrustum ℚ)).2.2.2.1⟩

/-- The sign test of a raw plane is the raw clip expression of that plane. -/
theorem rawPlane_classify_eq_clipTest (mat : matrix4 K) (P : vector3d K) (i : Fin 6) :
    (rawPlane mat i).classify P = mat.clipTest P i := by
  obtain ⟨h0, h1, h2, h3, h4, h5⟩ := rawPlane_classify mat P
  fin_cases i
  · exact h0
  · exact h1
  · exact h2
  · exact h3
  · exact h4
  · exact h5

/-- After `setFrom` the sign test of plane `i` is the raw clip expression of that plane
times a negative factor. -/
theorem setFrom_classify_eq (rs : K → K) (hrs : IsRsqrt rs) (p0 : vector3d K)
    (mat : matrix4 K) (F : SViewFrustum K)
    (hn : ∀ i : Fin 6, (rawPlane mat i).Normal ≠ vector3d.zero) (P : vector3d K)
    (i : Fin 6) :
    ∃ s : K, 0 < s ∧ ((F.setFrom rs p0 mat).planes i).classify P = -(s * mat.clipTest P i) := by
  refine ⟨rs (rawPlane mat i).Normal.getLengthSQ, (hrs _ (getLengthSQ_pos _ (hn i))).1, ?_⟩
  rw [setFrom_planes, classify_scale, rawPlane_classify_eq_clipTest, neg_mul]

/-- After `setFrom` the sign test of plane `i` and the raw clip expression of that plane
have opposite signs. -/
theorem setFrom_classify_sign (rs : K → K) (hrs : IsRsqrt rs) (p0 : vector3d K)
    (mat : matrix4 K) (F : SViewFrustum K)
    (hn : ∀ i : Fin 6, (rawPlane mat i).Normal ≠ vector3d.zero) (P : vector3d K)
    (i : Fin 6) :
    (((F.setFrom rs p0 mat).planes i).classify P < 0 ↔ 0 < mat.clipTest P i) ∧
    (((F.setFrom rs p0 mat).planes i).classify P = 0 ↔ mat.clipTest P i = 0) ∧
    (0 < ((F.setFrom rs p0 mat).planes i).classify P ↔ mat.clipTest P i < 0) := by
  obtain ⟨s, hs, h⟩ := setFrom_classify_eq rs hrs p0 mat F hn P i
  rw [h]
  refine ⟨?_, ?_, ?_⟩
  · rw [neg_lt_zero]
    exact ⟨fun h => pos_of_mul_pos_right h hs.le, fun h => mul_pos hs h⟩
  · rw [neg_eq_zero, mul_eq_zero]
    exact ⟨fun h => h.resolve_left hs.ne', fun h => Or.inr h⟩
  · rw [neg_pos]
    constructor
    · intro h
      by_contra hc
      exact absurd h (not_lt.mpr (mul_nonneg hs.le (not_lt.mp hc)))
    · intro h
      exact mul_neg_of_pos_of_neg hs h

/-- The raw plane normals of the perspective matrix with near 1 and far 2 are
non-zero. -/
theorem rawPlane_perspective_ne_zero (i : Fin 6) :
    (rawPlane (perspectiveMatrix 1 2 : matrix4 ℝ) i).Normal ≠ vector3d.zero := by
  fin_cases i <;>
    simp [rawPlane, matrix4.fourVector, perspectiveMatrix, plane3d.add, plane3d.sub,
      vector3d.add, vector3d.zero] <;> norm_num

/-- The clip coordinates of the eye of the perspective matrix with near 1 and far 2. -/
theorem perspective_clip_eye :
    (perspectiveMatrix 1 2 : matrix4 ℝ).clip ⟨0, 0, 0⟩ 0 = 0 ∧
    (perspectiveMatrix 1 2 : matrix4 ℝ).clip ⟨0, 0, 0⟩ 1 = 0 ∧
    (perspectiveMatrix 1 2 : matrix4 ℝ).clip ⟨0, 0, 0⟩ 2 = -2 ∧
    (perspectiveMatrix 1 2 : matrix4 ℝ).clip ⟨0, 0, 0⟩ 3 = 0 := by
  simp only [matrix4.clip, matrix4.fourVector, perspectiveMatrix]
  norm_num

/-- C3, refuted as stated: for the perspective matrix with near 1 and far 2 and the
camera at its eye, the origin, `setFrom` leaves the camera there and the sign test
`dot(Normal, cameraPosition) + D` is 0 on the left, right, bottom and top planes and
negative on the far plane, so it is not positive on all six; and for the identity
matrix, the orthographic projection of width 2, height 2, near 0 and far 1, with the
camera at `(0, 0, 1/2)` in the middle of the visible box, it is negative on all six. -/
theorem cameraPosition_positive_inside_counterexample :
    (SViewFrustum.blank.setFrom (fun x : ℝ => (Real.sqrt x)⁻¹) vector3d.zero
      (perspectiveMatrix 1 2)).cameraPosition = ⟨0, 0, 0⟩ ∧
    ((SViewFrustum.blank.setFrom (fun x : ℝ => (Real.sqrt x)⁻¹) vector3d.zero
      (perspectiveMatrix 1 2)).planes VF_LEFT_PLANE).classify ⟨0, 0, 0⟩ = 0 ∧
    ((SViewFrustum.blank.setFrom (fun x : ℝ => (Real.sqrt x)⁻¹) vector3d.zero
      (perspectiveMatrix 1 2)).planes VF_RIGHT_PLANE).classify ⟨0, 0, 0⟩ = 0 ∧
    ((SViewFrustum.blank.setFrom (fun x : ℝ => (Real.sqrt x)⁻¹) vector3d.zero
      (perspectiveMatrix 1 2)).planes VF_BOTTOM_PLANE).classify ⟨0, 0, 0⟩ = 0 ∧
    ((SViewFrustum.blank.setFrom (fun x : ℝ => (Real.sqrt x)⁻¹) vector3d.zero
      (perspectiveMatrix 1 2)).planes VF_TOP_PLANE).classify ⟨0, 0, 0⟩ = 0 ∧
    ((SViewFrustum.blank.setFrom (fun x : ℝ => (Real.sqrt x)⁻¹) vector3d.zero
      (perspectiveMatrix 1 2)).planes VF_FAR_PLANE).classify ⟨0, 0, 0⟩ < 0 ∧
    ¬ (∀ i : Fin 6,
      0 < ((SViewFrustum.blank.setFrom (fun x : ℝ => (Real.sqrt x)⁻¹) vector3d.zero
          (perspectiveMatrix 1 2)).planes i).classify
        (SViewFrustum.blank.setFrom (fun x : ℝ => (Real.sqrt x)⁻¹) vector3d.zero
          (perspectiveMatrix 1 2)).cameraPosition) ∧
    (identityMatrix : matrix4 ℝ) = orthoMatrix 2 2 0 1 ∧
    (∀ i : Fin 6,
      ((({ SViewFrustum.blank with cameraPosition := ⟨0, 0, 1 / 2⟩ } : SViewFrustum ℝ).setFrom
          (fun x : ℝ => (Real.sqrt x)⁻¹) vector3d.zero identityMatrix).planes i).classify
        (({ SViewFrustum.blank with cameraPosition := ⟨0, 0, 1 / 2⟩ } : SViewFrustum ℝ).setFrom
          (fun x : ℝ => (Real.sqrt x)⁻¹) vector3d.zero identityMatrix).cameraPosition < 0) := by
  obtain ⟨c0, c1, c2, c3⟩ := perspective_clip_eye
  have sgn := setFrom_classify_sign (fun x : ℝ => (Real.sqrt x)⁻¹) isRsqrt_real
    vector3d.zero (perspectiveMatrix 1 2) SViewFrustum.blank rawPlane_perspective_ne_zero
    ⟨0, 0, 0⟩
  have hleft : ((SViewFrustum.blank.setFrom (fun x : ℝ => (Real.sqrt x)⁻¹) vector3d.zero
      (perspectiveMatrix 1 2)).planes VF_LEFT_PLANE).classify ⟨0, 0, 0⟩ = 0 :=
    (sgn 2).2.1.mpr (by simp only [matrix4.clipTest, c0, c3, add_zero])
  have hneg := fun i => setFrom_classify_neg_of_strictlyInside (fun x : ℝ => (Real.sqrt x)⁻¹)
    isRsqrt_real vector3d.zero identityMatrix
    ({ SViewFrustum.blank with cameraPosition := ⟨0, 0, 1 / 2⟩ } : SViewFrustum ℝ)
    rawPlane_identity_ne_zero ⟨0, 0, 1 / 2⟩ strictlyInside_identity i
  refine ⟨rfl, hleft, ?_, ?_, ?_, ?_, ?_, identityMatrix_eq_ortho, hneg⟩
  · exact (sgn 3).2.1.mpr (by simp only [matrix4.clipTest, c0, c3, sub_zero])
  · exact (sgn 4).2.1.mpr (by simp only [matrix4.clipTest, c1, c3, add_zero])
  · exact (sgn 5).2.1.mpr (by simp only [matrix4.clipTest, c1, c3, sub_zero])
  · exact (sgn 0).1.mpr (by simp only [matrix4.clipTest, c2, c3]; norm_num)
  · intro h
    have h2 := h 2
    have e : (SViewFrustum.blank.setFrom (fun x : ℝ => (Real.sqrt x)⁻¹) vector3d.zero
        (perspectiveMatrix 1 2)).cameraPosition = ⟨0, 0, 0⟩ := rfl
    rw [e] at h2
    exact absurd hleft h2.ne'

/-- C3, amended: for a matrix whose six raw plane normals are non-zero, `setFrom` leaves
`cameraPosition` as it was before the call, and on every plane the sign test
`dot(Normal, cameraPosition) + D` has the sign opposite to the raw clip expression of
that plane at the camera: negative where the expression is positive, zero where it is
zero, positive where it is negative. So no test is positive for a camera inside the clip
volume, and at an eye, where `c0 = c1 = c3 = 0`, the tests of the left, right, bottom
and top planes are zero. -/
theorem setFrom_cameraPosition_kept_and_tests_opposite (rs : K → K) (hrs : IsRsqrt rs)
    (p0 : vector3d K) (mat : matrix4 K) (F : SViewFrustum K)
    (hn : ∀ i : Fin 6, (rawPlane mat i).Normal ≠ vector3d.zero) :
    (F.setFrom rs p0 mat).cameraPosition = F.cameraPosition ∧
    (∀ i : Fin 6,
      (((F.setFrom rs p0 mat).planes i).classify (F.setFrom rs p0 mat).cameraPosition < 0
        ↔ 0 < mat.clipTest F.cameraPosition i) ∧
      (((F.setFrom rs p0 mat).planes i).classify (F.setFrom rs p0 mat).cameraPosition = 0
        ↔ mat.clipTest F.cameraPosition i = 0) ∧
      (0 < ((F.setFrom rs p0 mat).planes i).classify (F.setFrom rs p0 mat).cameraPosition
        ↔ mat.clipTest F.cameraPosition i < 0)) ∧
    ((- mat.clip F.cameraPosition 3 ≤ mat.clip F.cameraPosition 0 ∧
      mat.clip F.cameraPosition 0 ≤ mat.clip F.cameraPosition 3 ∧
      - mat.clip F.cameraPosition 3 ≤ mat.clip F.cameraPosition 1 ∧
      mat.clip F.cameraPosition 1 ≤ mat.clip F.cameraPosition 3 ∧
      0 ≤ mat.clip F.cameraPosition 2 ∧
      mat.clip F.cameraPosition 2 ≤ mat.clip F.cameraPosition 3) →
      ∀ i : Fin 6, ¬ 0 <
        ((F.setFrom rs p0 mat).planes i).classify (F.setFrom rs p0 mat).cameraPosition) ∧
    (mat.clip F.cameraPosition 0 = 0 ∧ mat.clip F.cameraPosition 1 = 0 ∧
      mat.clip F.cameraPosition 3 = 0 →
      ((F.setFrom rs p0 mat).planes VF_LEFT_PLANE).classify
          (F.setFrom rs p0 mat).cameraPosition = 0 ∧
      ((F.setFrom rs p0 mat).planes VF_RIGHT_PLANE).classify
          (F.setFrom rs p0 mat).cameraPosition = 0 ∧
      ((F.setFrom rs p0 mat).planes VF_BOTTOM_PLANE).classify
          (F.setFrom rs p0 mat).cameraPosition = 0 ∧
      ((F.setFrom rs p0 mat).planes VF_TOP_PLANE).classify
          (F.setFrom rs p0 mat).cameraPosition = 0) := by
  have sgn := setFrom_classify_sign rs hrs p0 mat F hn F.cameraPosition
  refine ⟨rfl, sgn, ?_, ?_⟩
  · rintro ⟨a, b, c, d, e, f⟩ i hpos
    have hlt := (sgn i).2.2.mp hpos
    fin_cases i <;> simp only [matrix4.clipTest] at hlt <;> linarith
  · rintro ⟨e0, e1, e3⟩
    refine ⟨(sgn 2).2.1.mpr ?_, (sgn 3).2.1.mpr ?_, (sgn 4).2.1.mpr ?_, (sgn 5).2.1.mpr ?_⟩
    · simp only [matrix4.clipTest, e0, e3, add_zero]
    · simp only [matrix4.clipTest, e0, e3, sub_zero]
    · simp only [matrix4.clipTest, e1, e3, add_zero]
    · simp only [matrix4.clipTest, e1, e3, sub_zero]

/-- C3 amended, at the perspective matrix with near 1 and far 2 and the camera at its
eye: the test of the near plane is positive, the raw clip expression `c2 = -2` being
negative. -/
theorem setFrom_cameraPosition_kept_and_tests_opposite_witness :
    IsRsqrt (fun x : ℝ => (Real.sqrt x)⁻¹) ∧
    (∀ i : Fin 6, (rawPlane (perspectiveMatrix 1 2 : matrix4 ℝ) i).Normal ≠ vector3d.zero) ∧
    ((perspectiveMatrix 1 2 : matrix4 ℝ).clipTest
        (SViewFrustum.blank : SViewFrustum ℝ).cameraPosition 1 < 0 ∧
      0 < ((SViewFrustum.blank.setFrom (fun x : ℝ => (Real.sqrt x)⁻¹) vector3d.zero
          (perspectiveMatrix 1 2)).planes 1).classify
        (SViewFrustum.blank.setFrom (fun x : ℝ => (Real.sqrt x)⁻¹) vector3d.zero
          (perspectiveMatrix 1 2)).cameraPosition) := by
  have hc : (perspectiveMatrix 1 2 : matrix4 ℝ).clipTest
      (SViewFrustum.blank : SViewFrustum ℝ).cameraPosition 1 < 0 := by
    show (perspectiveMatrix 1 2 : matrix4 ℝ).clip ⟨0, 0, 0⟩ 2 < 0
    rw [perspective_clip_eye.2.2.1]
    norm_num
  exact ⟨isRsqrt_real, rawPlane_perspective_ne_zero, hc,
    ((setFrom_cameraPosition_kept_and_tests_opposite (fun x : ℝ => (Real.sqrt x)⁻¹)
      isRsqrt_real vector3d.zero (perspectiveMatrix 1 2) SViewFrustum.blank
      rawPlane_perspective_ne_zero).2.1 1).2.2.mpr hc⟩

/-- C5: a bare `recalculateBoundingBox` keeps `cameraPosition` and the planes, and
`setFrom` keeps the prior `cameraPosition` and stores the normalised planes of the
matrix; after either, for every matrix and every prior camera position, the box
`getBoundingBox` returns is the tightest box around that camera position and the four
far corners as the current planes give them, its edges being the component-wise minimum
and maximum of exactly those five points; and the box held before does not enter the
result. -/
theorem getBoundingBox_is_tightest_box (rs : K → K) (p0 : vector3d K) (mat : matrix4 K)
    (F : SViewFrustum K) :
    ((F.recalculateBoundingBox p0).cameraPosition = F.cameraPosition ∧
      (F.recalculateBoundingBox p0).planes = F.planes ∧
      (F.recalculateBoundingBox p0).getFarLeftUp p0 = F.getFarLeftUp p0 ∧
      (F.recalculateBoundingBox p0).getFarRightUp p0 = F.getFarRightUp p0 ∧
      (F.recalculateBoundingBox p0).getFarLeftDown p0 = F.getFarLeftDown p0 ∧
      (F.recalculateBoundingBox p0).getFarRightDown p0 = F.getFarRightDown p0 ∧
      (F.recalculateBoundingBox p0).getBoundingBox.isTightestAround F.cameraPosition
        (F.getFarLeftUp p0) (F.getFarRightUp p0) (F.getFarLeftDown p0)
        (F.getFarRightDown p0)) ∧
    ((F.setFrom rs p0 mat).cameraPosition = F.cameraPosition ∧
      (∀ i : Fin 6, (F.setFrom rs p0 mat).planes i
        = (rawPlane mat i).scale (- rs (rawPlane mat i).Normal.getLengthSQ)) ∧
      (F.setFrom rs p0 mat).getBoundingBox.isTightestAround F.cameraPosition
        ((F.setFrom rs p0 mat).getFarLeftUp p0) ((F.setFrom rs p0 mat).getFarRightUp p0)
        ((F.setFrom rs p0 mat).getFarLeftDown p0)
        ((F.setFrom rs p0 mat).getFarRightDown p0)) ∧
    (∀ b : aabbox3d K,
      (({ F with boundingBox := b } : SViewFrustum K).recalculateBoundingBox p0).getBoundingBox
        = (F.recalculateBoundingBox p0).getBoundingBox ∧
      (({ F with boundingBox := b } : SViewFrustum K).setFrom rs p0 mat).getBoundingBox
        = (F.setFrom rs p0 mat).getBoundingBox) :=
  ⟨⟨rfl, rfl, rfl, rfl, rfl, rfl, boundsOfFive_isTightestAround _ _ _ _ _⟩,
    ⟨rfl, fun i => setFrom_planes rs p0 mat F i, boundsOfFive_isTightestAround _ _ _ _ _⟩,
    fun _ => ⟨rfl, rfl⟩⟩

/-- The camera position after `transform`, whatever the plane helper. -/
theorem transform_cameraPosition (tp : matrix4 K → plane3d K → plane3d K)
    (p0 : vector3d K) (mat : matrix4 K) (F : SViewFrustum K) :
    (F.transform tp p0 mat).cameraPosition = mat.transformVect F.cameraPosition :=
  rfl

end irr
